import Mathlib

/-!
Shallow embedding of the TikTok data-donation script
(src/framework/processing/py/port/script.py): the JSON data model, the
temporal utilities, the export reader, the active table extractors, the
extraction orchestrator and the donation flow controller, together with
theorems checking the specification's claims against these definitions.

Machine-level conventions: Python runtime exceptions are modelled by the
`PyErr` type and fallible code returns `Except PyErr _`; Python/JSON
values are modelled by `JValue` (arrays and objects are encoded as
right-nested cons chains so that decidable equality is structural);
`datetime.datetime` values are modelled by `PyDateTime` with Python's
field-lexicographic comparison.
-/

/-- Error classes of the Python exceptions raised by the modelled code:
`ValueError` (e.g. `strptime` or `int()` on a malformed string),
`TypeError`, `KeyError` (subscripting a missing dict key),
`AttributeError` (e.g. calling `.values()` on `None`), `IOError`/`OSError`
(unreadable files, and the explicit `IOError` raised by `load_tiktok_data`),
the script's own `InvalidFileError` class, and `zipfile.BadZipFile`. -/
inductive PyErr where
  | valueError
  | typeError
  | keyError
  | attributeError
  | ioError
  | invalidFileError
  | badZipFile
deriving DecidableEq, Repr

deriving instance DecidableEq for Except

/-- Python/JSON values.  Arrays are encoded as `arrCons`/`arrNil` chains and
objects (dicts) as `objCons`/`objNil` chains, which keeps the type
non-nested so that equality is structurally decidable. -/
inductive JValue where
  | null
  | num (n : Int)
  | str (s : String)
  | arrNil
  | arrCons (head : JValue) (tail : JValue)
  | objNil
  | objCons (key : String) (val : JValue) (rest : JValue)
deriving DecidableEq, Repr

/-- Builds a JSON array value from a list of values. -/
def jarr (l : List JValue) : JValue :=
  l.foldr JValue.arrCons JValue.arrNil

/-- Builds a JSON object value from a list of key-value pairs. -/
def jobj (l : List (String × JValue)) : JValue :=
  l.foldr (fun p r => JValue.objCons p.1 p.2 r) JValue.objNil

/-- Dict lookup `d.get(k, None)` on an object chain; `none` when the key is
absent.  Only called on values already known to be objects. -/
def JValue.lookup : JValue → String → Option JValue
  | .objCons k v rest, key => if key = k then some v else rest.lookup key
  | _, _ => none

/-- Decides whether a value is a dict (Python objects of other types have no
`.get` attribute). -/
def JValue.isObj : JValue → Bool
  | .objNil => true
  | .objCons _ _ _ => true
  | _ => false

/-- Reads the elements of a JSON array as a Lean list; iterating a
non-iterable Python value raises `TypeError`. -/
def JValue.elems : JValue → Except PyErr (List JValue)
  | .arrNil => .ok []
  | .arrCons h t => do
    let rest ← t.elems
    .ok (h :: rest)
  | _ => .error .typeError

/-- Reads the values of a dict in insertion order, as `dict.values()` does;
on a non-dict the attribute access raises `AttributeError`. -/
def JValue.dictValues : JValue → Except PyErr (List JValue)
  | .objNil => .ok []
  | .objCons _ v rest => do
    let tail ← rest.dictValues
    .ok (v :: tail)
  | _ => .error .attributeError

/-- Subscript access `item[key]`: a missing key raises `KeyError` and a
non-dict receiver raises `TypeError`. -/
def pyGetItem (item : JValue) (key : String) : Except PyErr JValue :=
  match item with
  | .objCons _ _ _ =>
    match item.lookup key with
    | some v => .ok v
    | none => .error .keyError
  | .objNil => .error .keyError
  | _ => .error .typeError

/-- Truthiness test `not value` used by `load_tiktok_data`: `None`, empty
strings, zero, and empty collections are falsy. -/
def pyFalsy : Option JValue → Bool
  | none => true
  | some .null => true
  | some (.str s) => s = ""
  | some (.num n) => n = 0
  | some .arrNil => true
  | some .objNil => true
  | some _ => false

/-- Model of `get_in(data_dict, *key_path)`: walks the key path with
`dict.get`, returning `None` as soon as a key is missing (or maps to
`None`); calling `.get` on a non-dict intermediate raises
`AttributeError`. -/
def get_in (data : JValue) : List String → Except PyErr (Option JValue)
  | [] => .ok (some data)
  | k :: ks =>
    if data.isObj then
      match data.lookup k with
      | none => .ok none
      | some .null => .ok none
      | some v => get_in v ks
    else .error .attributeError

/-- Model of `get_list`: a missing path defaults to the empty list; the
value found must be an array to be iterable by the callers modelled here. -/
def get_list (data : JValue) (path : List String) : Except PyErr (List JValue) := do
  match ← get_in data path with
  | none => .ok []
  | some v => v.elems

/-- Model of `get_dict`: a missing path defaults to the empty dict. -/
def get_dict (data : JValue) (path : List String) : Except PyErr JValue := do
  match ← get_in data path with
  | none => .ok JValue.objNil
  | some v => .ok v

/-- Model of `cast_number`: a missing value or the literal string "None"
becomes `0`; any other value is returned unchanged. -/
def cast_number (data : JValue) (path : List String) : Except PyErr JValue := do
  match ← get_in data path with
  | none => .ok (JValue.num 0)
  | some (.str "None") => .ok (JValue.num 0)
  | some v => .ok v

/-- Model of `datetime.datetime` restricted to the fields the script uses
(microseconds are always zero here). -/
structure PyDateTime where
  year : Nat
  month : Nat
  day : Nat
  hour : Nat
  minute : Nat
  second : Nat
deriving DecidableEq, Repr

/-- Python's `datetime < datetime`: lexicographic on the fields. -/
def PyDateTime.lt (a b : PyDateTime) : Bool :=
  if a.year ≠ b.year then a.year < b.year
  else if a.month ≠ b.month then a.month < b.month
  else if a.day ≠ b.day then a.day < b.day
  else if a.hour ≠ b.hour then a.hour < b.hour
  else if a.minute ≠ b.minute then a.minute < b.minute
  else a.second < b.second

/-- Python's `datetime <= datetime` for the total lexicographic order. -/
def PyDateTime.le (a b : PyDateTime) : Bool :=
  !(PyDateTime.lt b a)

/-- Value of a decimal digit character. -/
def digitVal (c : Char) : Option Nat :=
  if c.isDigit then some (c.toNat - 48) else none

/-- Parses two decimal digit characters. -/
def twoDigits (a b : Char) : Option Nat := do
  let x ← digitVal a
  let y ← digitVal b
  pure (10 * x + y)

/-- Gregorian leap-year rule. -/
def isLeapYear (y : Nat) : Bool :=
  y % 4 == 0 && (y % 100 != 0 || y % 400 == 0)

/-- Number of days in a month, as validated by `datetime`. -/
def daysInMonth (y m : Nat) : Nat :=
  if m == 2 then (if isLeapYear y then 29 else 28)
  else if m == 4 || m == 6 || m == 9 || m == 11 then 30
  else 31

/-- Model of `parse_datetime` (`datetime.strptime` with format
"%Y-%m-%d %H:%M:%S"): the string must match the fixed pattern and denote a
valid calendar date-time, otherwise `ValueError` is raised. -/
def parse_datetime (s : String) : Except PyErr PyDateTime :=
  match s.data with
  | [y1, y2, y3, y4, '-', m1, m2, '-', d1, d2, ' ', h1, h2, ':', n1, n2, ':', s1, s2] =>
    match twoDigits y1 y2, twoDigits y3 y4, twoDigits m1 m2, twoDigits d1 d2,
        twoDigits h1 h2, twoDigits n1 n2, twoDigits s1 s2 with
    | some yh, some yl, some mo, some dy, some hr, some mi, some sc =>
      let yr := 100 * yh + yl
      if 1 ≤ mo ∧ mo ≤ 12 ∧ 1 ≤ dy ∧ dy ≤ daysInMonth yr mo ∧ hr ≤ 23 ∧ mi ≤ 59 ∧ sc ≤ 59 then
        .ok ⟨yr, mo, dy, hr, mi, sc⟩
      else .error .valueError
    | _, _, _, _, _, _, _ => .error .valueError
  | _ => .error .valueError

/-- Expects a Python string where `strptime` is applied; any other value
raises `TypeError`. -/
def parseDateValue (v : JValue) : Except PyErr PyDateTime :=
  match v with
  | .str s => parse_datetime s
  | _ => .error .typeError

/-- Model of the constant `filter_start = datetime(2021, 1, 1)`. -/
def filter_start : PyDateTime := ⟨2021, 1, 1, 0, 0, 0⟩

/-- Model of the constant `filter_end = datetime(2025, 1, 1)`. -/
def filter_end : PyDateTime := ⟨2025, 1, 1, 0, 0, 0⟩

/-- Reads and parses `item["Date"]`. -/
def itemDate (item : JValue) : Except PyErr PyDateTime := do
  parseDateValue (← pyGetItem item "Date")

/-- Decides whether a timestamp survives the `get_date_filtered_items`
test `not (timestamp < filter_start or timestamp > filter_end)`. -/
def inWindow (t : PyDateTime) : Bool :=
  !(PyDateTime.lt t filter_start) && !(PyDateTime.lt filter_end t)

/-- Model of `get_date_filtered_items`: parses each item's "Date" and keeps
the pairs `(timestamp, item)` whose timestamp is not before `filter_start`
and not after `filter_end`. -/
def get_date_filtered_items : List JValue → Except PyErr (List (PyDateTime × JValue))
  | [] => .ok []
  | item :: rest => do
    let t ← itemDate item
    let tail ← get_date_filtered_items rest
    if inWindow t then .ok ((t, item) :: tail) else .ok tail

/-- Zero-pads a numeral to two digits. -/
def pad2 (n : Nat) : String :=
  if n < 10 then "0" ++ toString n else toString n

/-- Zero-pads a numeral to four digits. -/
def pad4 (n : Nat) : String :=
  if n < 10 then "000" ++ toString n
  else if n < 100 then "00" ++ toString n
  else if n < 1000 then "0" ++ toString n
  else toString n

/-- Formatting "%Y-%m-%d". -/
def fmtDay (d : PyDateTime) : String :=
  pad4 d.year ++ "-" ++ pad2 d.month ++ "-" ++ pad2 d.day

/-- Formatting "%Y-%m-%d %H:%M". -/
def fmtMinute (d : PyDateTime) : String :=
  fmtDay d ++ " " ++ pad2 d.hour ++ ":" ++ pad2 d.minute

/-- Formatting "%Y-%m-%d %H:00:00". -/
def fmtHourFloor (d : PyDateTime) : String :=
  fmtDay d ++ " " ++ pad2 d.hour ++ ":00:00"

/-- Model of `map_to_timeslot` applied to one hour value: the label
"H-H+1". -/
def timeslotLabel (h : Nat) : String :=
  toString h ++ "-" ++ toString (h + 1)

/-- Model of `hourly_key`: the timestamp with minutes and seconds zeroed. -/
def hourly_key (d : PyDateTime) : PyDateTime :=
  ⟨d.year, d.month, d.day, d.hour, 0, 0⟩

/-- Cells of the produced data frames: strings, integers, the missing-value
marker (pandas NaN), or an uninterpreted Python value. -/
inductive Cell where
  | s (v : String)
  | i (v : Int)
  | nan
  | j (v : JValue)
deriving DecidableEq, Repr

/-- Places a Python value into a data-frame cell. -/
def cellOfJ : JValue → Cell
  | .num n => .i n
  | .str t => .s t
  | .null => .nan
  | v => .j v

/-- Model of an `ExtractionResult`: its stable id and its tabular data
(the translatable titles, descriptions and chart hints carry no logic and
are omitted). -/
structure ExtractionResult where
  id : String
  columns : List String
  rows : List (List Cell)
deriving DecidableEq, Repr

/-- Model of `get_user_name`: the value at
Profile → Profile Information → ProfileMap → userName, or `None`. -/
def get_user_name (data : JValue) : Except PyErr (Option JValue) :=
  get_in data ["Profile", "Profile Information", "ProfileMap", "userName"]

/-- Model of `get_chat_history` (defaults to the empty dict). -/
def get_chat_history (data : JValue) : Except PyErr JValue :=
  get_dict data ["Direct Messages", "Chat History", "ChatHistory"]

/-- Concatenates the elements of a list of arrays, as
`itertools.chain(*_)` does; a non-iterable member raises `TypeError`. -/
def concatElems : List JValue → Except PyErr (List JValue)
  | [] => .ok []
  | v :: rest => do
    let xs ← v.elems
    let ys ← concatElems rest
    .ok (xs ++ ys)

/-- Model of `flatten_chat_history`: chains together `history.values()`. -/
def flatten_chat_history (history : JValue) : Except PyErr (List JValue) := do
  let vals ← history.dictValues
  concatElems vals

/-- Keys of the anonymous-identifier dict: Python values, where `none`
stands for Python `None` (a possible result of `get_user_name`). -/
abbrev AnonKey := Option JValue

/-- Assoc-list lookup for the anonymous-identifier dict. -/
def anonLookup : List (AnonKey × Nat) → AnonKey → Option Nat
  | [], _ => none
  | (k, v) :: rest, key => if key = k then some v else anonLookup rest key

/-- State of `anon_ids = defaultdict(lambda: next(counter))`: the mapping in
insertion order plus the next counter value. -/
structure AnonState where
  table : List (AnonKey × Nat)
  counter : Nat
deriving DecidableEq, Repr

/-- Model of one `anon_ids[key]` access: an absent key is assigned the next
counter value. -/
def anonNext (st : AnonState) (k : AnonKey) : AnonState × Nat :=
  match anonLookup st.table k with
  | some v => (st, v)
  | none => (⟨st.table ++ [(k, st.counter)], st.counter + 1⟩, st.counter)

/-- Sequence of identifiers handed out for a sequence of keys. -/
def dmAssignGo (st : AnonState) : List AnonKey → List Nat
  | [] => []
  | k :: rest =>
    let p := anonNext st k
    p.2 :: dmAssignGo p.1 rest

/-- Identifier assignment of one run of the Direct Messages extractor: the
counter starts at 1 and the donating user's key is touched first. -/
def dmAssignIds (user : AnonKey) (froms : List AnonKey) : List Nat :=
  dmAssignGo (anonNext ⟨[], 1⟩ user).1 froms

/-- Keeps the first occurrence of every element, preserving order. -/
def dedupFirst {α : Type} [DecidableEq α] (l : List α) : List α :=
  l.foldl (fun acc x => if x ∈ acc then acc else acc ++ [x]) []

/-- Position of the first occurrence of an element in a list. -/
def rankIn {α : Type} [DecidableEq α] : List α → α → Nat
  | [], _ => 0
  | x :: rest, k => if x = k then 0 else 1 + rankIn rest k

/-- Distinct non-user keys of a key sequence, in first-seen order. -/
def seenOf (user : AnonKey) (p : List AnonKey) : List AnonKey :=
  dedupFirst (p.filter (fun x => x ≠ user))

/-- Declarative description of the anonymous identifier of a key: 1 for the
donating user, otherwise 2 plus the rank of the key among the distinct
non-user keys in first-seen order. -/
def specAnonId (user : AnonKey) (froms : List AnonKey) (k : AnonKey) : Nat :=
  if k = user then 1
  else 2 + rankIn (seenOf user froms) k

/-- Resolves the chat-history value `flatten_chat_history` receives:
flattening `None` (an absent section) raises `AttributeError` from
`None.values()`. -/
def historyItems (history : Option JValue) : Except PyErr (List JValue) :=
  match history with
  | none => .error PyErr.attributeError
  | some h => flatten_chat_history h

/-- Rows of the direct-messages table: anonymous id of `item["From"]` and
`item["Date"]` reformatted to minute precision. -/
def dmRowsGo (st : AnonState) : List JValue → Except PyErr (List (List Cell))
  | [] => .ok []
  | item :: rest => do
    let fromVal ← pyGetItem item "From"
    let p := anonNext st (some fromVal)
    let d ← itemDate item
    let tail ← dmRowsGo p.1 rest
    .ok ([Cell.i (Int.ofNat p.2), Cell.s (fmtMinute d)] :: tail)

/-- Model of `extract_direct_messages`: looks up the chat history with
`get_in` (no default), pre-touches the donating user's key in the
anonymous-identifier dict, then emits one row per flattened message.  When
the section is absent, `flatten_chat_history(None)` raises
`AttributeError`. -/
def extract_direct_messages (data : JValue) : Except PyErr ExtractionResult := do
  let history ← get_in data ["Direct Messages", "Chat History", "ChatHistory"]
  let user ← get_user_name data
  let st0 := (anonNext ⟨[], 1⟩ user).1
  let items ← historyItems history
  let rows ← dmRowsGo st0 items
  .ok ⟨"tiktok_direct_messages", ["Anonymous ID", "Sent"], rows⟩

/-- Model of `get_activity_video_browsing_list_data`. -/
def get_activity_video_browsing_list_data (data : JValue) : Except PyErr (List JValue) :=
  get_list data ["Activity", "Video Browsing History", "VideoList"]

/-- Column selection of a data frame built from a list of dicts: a missing
key yields the missing-value marker, a non-dict row is not modelled. -/
def dfGet (v : JValue) (key : String) : Except PyErr (Option JValue) :=
  if v.isObj then .ok (v.lookup key) else .error PyErr.typeError

/-- Parsing of a data-frame date column entry: `parse_datetime` applied to
a string, `TypeError` on the missing-value marker or any non-string. -/
def parseDfDate (dateVal : Option JValue) : Except PyErr PyDateTime :=
  match dateVal with
  | some (.str t) => parse_datetime t
  | _ => .error PyErr.typeError

/-- Cell holding a possibly-missing data-frame value. -/
def optCell : Option JValue → Cell
  | some w => cellOfJ w
  | none => Cell.nan

/-- Rows of the videos-viewed table: the raw "Date" value, the hour-slot
label derived from the parsed date, and the raw "Link" value; no window
filtering is applied. -/
def videos_viewed_rows : List JValue → Except PyErr (List (List Cell))
  | [] => .ok []
  | v :: rest => do
    let dateVal ← dfGet v "Date"
    let linkVal ← dfGet v "Link"
    let d ← parseDfDate dateVal
    let tail ← videos_viewed_rows rest
    .ok ([optCell dateVal, Cell.s (timeslotLabel d.hour), optCell linkVal] :: tail)

/-- Model of `extract_videos_viewed`: one row per browsing-history item. -/
def extract_videos_viewed (data : JValue) : Except PyErr ExtractionResult := do
  let videos ← get_activity_video_browsing_list_data data
  let rows ← videos_viewed_rows videos
  .ok ⟨"tiktok_videos_viewed", ["Date", "Timeslot", "Link"], rows⟩

/-- Accumulates the value of a digit string; `none` on a non-digit. -/
def digitsToNat (acc : Nat) : List Char → Option Nat
  | [] => some acc
  | c :: rest =>
    match digitVal c with
    | some d => digitsToNat (10 * acc + d) rest
    | none => none

/-- Integer literal parsing as `int(str)` accepts it: an optional sign
followed by at least one digit. -/
def strToInt (s : String) : Option Int :=
  match s.data with
  | [] => none
  | '-' :: rest =>
    match rest with
    | [] => none
    | _ => (digitsToNat 0 rest).map (fun n => -(n : Int))
  | '+' :: rest =>
    match rest with
    | [] => none
    | _ => (digitsToNat 0 rest).map (fun n => (n : Int))
  | l => (digitsToNat 0 l).map (fun n => (n : Int))

/-- Model of Python's `int(value)`: parses a string of digits with optional
sign, keeps integers, and raises `ValueError` on any other string (such as
"None") and `TypeError` on non-numeric non-string values. -/
def pyToInt (v : JValue) : Except PyErr Int :=
  match v with
  | .num n => .ok n
  | .str t =>
    match strToInt t with
    | some n => .ok n
    | none => .error .valueError
  | _ => .error .typeError

/-- Updates the per-hour statistics with one posted video carrying `likes`
likes: in-place update of an existing bucket, or a new bucket appended
(insertion order, like a Python dict). -/
def post_stats_update (stats : List (PyDateTime × Nat × Int)) (k : PyDateTime) (likes : Int) :
    List (PyDateTime × Nat × Int) :=
  match stats with
  | [] => [(k, 1, likes)]
  | (k2, c, s) :: rest =>
    if k2 = k then (k2, c + 1, s + likes) :: rest
    else (k2, c, s) :: post_stats_update rest k likes

/-- Folds the window-filtered videos into per-hour buckets, casting each
video's "Likes" with `int(...)`. -/
def build_post_stats (stats : List (PyDateTime × Nat × Int)) :
    List (PyDateTime × JValue) → Except PyErr (List (PyDateTime × Nat × Int))
  | [] => .ok stats
  | (d, video) :: rest => do
    let likesVal ← pyGetItem video "Likes"
    let likes ← pyToInt likesVal
    build_post_stats (post_stats_update stats (hourly_key d) likes) rest

/-- Model of `extract_video_posts`: no result when the section is absent;
otherwise one row per hour bucket with the video count and the summed
likes. -/
def extract_video_posts (data : JValue) : Except PyErr (Option ExtractionResult) := do
  let vlOpt ← get_in data ["Video", "Videos", "VideoList"]
  match vlOpt with
  | none => .ok none
  | some v => do
    let video_list ← v.elems
    let videos ← get_date_filtered_items video_list
    let stats ← build_post_stats [] videos
    let rows := stats.map (fun p =>
      [Cell.s (fmtDay p.1), Cell.s (timeslotLabel p.1.hour),
       Cell.i (Int.ofNat p.2.1), Cell.i p.2.2])
    .ok (some ⟨"tiktok_posts", ["Date", "Timeslot", "Videos", "Likes received"], rows⟩)

/-- Counts occurrences per key, keys in first-seen order (Python
`defaultdict(int)` insertion order). -/
def count_update (counts : List (PyDateTime × Nat)) (k : PyDateTime) : List (PyDateTime × Nat) :=
  match counts with
  | [] => [(k, 1)]
  | (k2, c) :: rest =>
    if k2 = k then (k2, c + 1) :: rest
    else (k2, c) :: count_update rest k

/-- Insertion step of the stable ascending sort of count pairs by key. -/
def insertByKey (p : PyDateTime × Nat) : List (PyDateTime × Nat) → List (PyDateTime × Nat)
  | [] => [p]
  | q :: rest => if PyDateTime.le p.1 q.1 then p :: q :: rest else q :: insertByKey p rest

/-- Sorts count pairs ascending by key (the keys are distinct). -/
def sortByKey (l : List (PyDateTime × Nat)) : List (PyDateTime × Nat) :=
  l.foldr insertByKey []

/-- Model of `get_count_by_date_key`: occurrence counts of the derived
keys, sorted ascending by key. -/
def get_count_by_date_key (timestamps : List PyDateTime) (key_func : PyDateTime → PyDateTime) :
    List (PyDateTime × Nat) :=
  sortByKey (timestamps.foldl (fun acc t => count_update acc (key_func t)) [])

/-- Assoc lookup of a count by its date key. -/
def lookupCount : List (PyDateTime × Nat) → PyDateTime → Option Nat
  | [], _ => none
  | (k, c) :: rest, key => if key = k then some c else lookupCount rest key

/-- Insertion step of the ascending sort of date keys. -/
def insertDate (d : PyDateTime) : List PyDateTime → List PyDateTime
  | [] => [d]
  | x :: rest => if PyDateTime.le d x then d :: x :: rest else x :: insertDate d rest

/-- Sorts date keys ascending. -/
def sortDates (l : List PyDateTime) : List PyDateTime :=
  l.foldr insertDate []

/-- Model of `extract_comments_and_likes`: hour-bucketed comment and
likes-given counts, outer-joined on the hour key and sorted by it; no
result when the likes-given series is empty. -/
def extract_comments_and_likes (data : JValue) : Except PyErr (Option ExtractionResult) := do
  let commentItems ← get_list data ["Comment", "Comments", "CommentsList"]
  let commentPairs ← get_date_filtered_items commentItems
  let comment_counts := get_count_by_date_key (commentPairs.map Prod.fst) hourly_key
  let likeItems ← get_list data ["Activity", "Like List", "ItemFavoriteList"]
  let likePairs ← get_date_filtered_items likeItems
  let likes_given_counts := get_count_by_date_key (likePairs.map Prod.fst) hourly_key
  if likes_given_counts = [] then .ok none
  else
    let keys := sortDates (dedupFirst
      ((comment_counts.map Prod.fst) ++ (likes_given_counts.map Prod.fst)))
    let rows := keys.map (fun k =>
      [Cell.s (fmtHourFloor k), Cell.s (timeslotLabel k.hour),
       Cell.i (Int.ofNat ((lookupCount comment_counts k).getD 0)),
       Cell.i (Int.ofNat ((lookupCount likes_given_counts k).getD 0))])
    .ok (some ⟨"tiktok_comments_and_likes",
      ["Date", "Timeslot", "Comment posts", "Likes given"], rows⟩)

/-- Model of Python `sorted` on instants. -/
def sortAsc (l : List Int) : List Int :=
  l.insertionSort (· ≤ ·)

/-- Scan of `get_sessions` over the sorted tail: `start` and `endv` are the
current session's bounds; a gap above 5 minutes (300 seconds) closes the
session. -/
def sessionsLoop (start endv : Int) : List Int → List (Int × Int × Int)
  | [] => [(start, endv, endv - start)]
  | cur :: rest =>
    if cur - endv > 300 then (start, endv, endv - start) :: sessionsLoop cur cur rest
    else sessionsLoop start cur rest

/-- Model of `get_sessions` with instants as absolute seconds: sorts the
timestamps, then groups them into sessions separated by gaps above 5
minutes, returning (start, end, duration) triples. -/
def get_sessions (timestamps : List Int) : List (Int × Int × Int) :=
  match sortAsc timestamps with
  | [] => []
  | [t] => [(t, t, 0)]
  | t :: rest => sessionsLoop t t rest

/-- Days of the proleptic Gregorian calendar before the given year. -/
def daysBeforeYear (y : Nat) : Nat :=
  let z := y - 1
  365 * z + z / 4 - z / 100 + z / 400

/-- Days before the given month within a year. -/
def daysBeforeMonth (y m : Nat) : Nat :=
  (List.range (m - 1)).foldl (fun acc i => acc + daysInMonth y (i + 1)) 0

/-- Seconds of a date-time counted from a fixed epoch; Python timedelta
arithmetic on datetimes is modelled as subtraction of these counts. -/
def toEpochSeconds (d : PyDateTime) : Int :=
  Int.ofNat (((daysBeforeYear d.year + daysBeforeMonth d.year d.month + (d.day - 1)) * 24
    + d.hour) * 3600 + d.minute * 60 + d.second)

/-- Difference of two datetimes in seconds (`a - b` as a timedelta). -/
def dtSub (a b : PyDateTime) : Int :=
  toEpochSeconds a - toEpochSeconds b

/-- Insertion step of the ascending insertion sort on datetimes. -/
def insertSortedD (x : PyDateTime) : List PyDateTime → List PyDateTime
  | [] => [x]
  | y :: ys => if PyDateTime.le x y then x :: y :: ys else y :: insertSortedD x ys

/-- Model of Python `sorted` on datetimes. -/
def sortAscD (l : List PyDateTime) : List PyDateTime :=
  l.foldr insertSortedD []

/-- Scan of `get_sessions` on datetimes (same control flow as
`sessionsLoop`, with gaps measured in seconds). -/
def sessionsLoopD (start endv : PyDateTime) :
    List PyDateTime → List (PyDateTime × PyDateTime × Int)
  | [] => [(start, endv, dtSub endv start)]
  | cur :: rest =>
    if dtSub cur endv > 300 then
      (start, endv, dtSub endv start) :: sessionsLoopD cur cur rest
    else sessionsLoopD start cur rest

/-- Instance of `get_sessions` at datetime arguments, as called by
`extract_session_info`. -/
def get_sessions_dt (timestamps : List PyDateTime) : List (PyDateTime × PyDateTime × Int) :=
  match sortAscD timestamps with
  | [] => []
  | [t] => [(t, t, 0)]
  | t :: rest => sessionsLoopD t t rest

/-- Rounds `num / den` (with `den > 0`, `num ≥ 0`) to the nearest integer,
ties to even, as Python's `round` does. -/
def roundHalfEven (num den : Int) : Int :=
  let q := num / den
  let r := num % den
  if 2 * r < den then q
  else if 2 * r > den then q + 1
  else if q % 2 = 0 then q else q + 1

/-- Duration in hundredths of minutes: `round(seconds / 60, 2)` represented
exactly as an integer count of centiminutes. -/
def roundCentiMinutes (seconds : Int) : Int :=
  roundHalfEven (seconds * 100) 60

/-- Model of `extract_session_info`: sessions over the union of the three
timestamp sources; each row carries the session start at minute precision
and its duration in minutes (stored here as centiminutes). -/
def extract_session_info (data : JValue) : Except PyErr ExtractionResult := do
  let l1 ← get_list data ["Video", "Videos", "VideoList"]
  let l2 ← get_list data ["Activity", "Video Browsing History", "VideoList"]
  let l3 ← get_list data ["Comment", "Comments", "CommentsList"]
  let pairs ← get_date_filtered_items (l1 ++ l2 ++ l3)
  let sessions := get_sessions_dt (pairs.map Prod.fst)
  let rows := sessions.map (fun p =>
    [Cell.s (fmtMinute p.1), Cell.i (roundCentiMinutes p.2.2)])
  .ok ⟨"tiktok_session_info", ["Start", "Duration (in minutes)"], rows⟩

/-- Model of `filtered_count`: the number of window-filtered items at the
path. -/
def filtered_count (data : JValue) (path : List String) : Except PyErr Nat := do
  let items ← get_list data path
  let filtered ← get_date_filtered_items items
  .ok filtered.length

/-- Counts the filtered messages whose `item["From"]` equality test against
the user name has the wanted outcome. -/
def count_from_matches (user : Option JValue) (want : Bool) :
    List (PyDateTime × JValue) → Except PyErr Nat
  | [] => .ok 0
  | (_, item) :: rest => do
    let fv ← pyGetItem item "From"
    let restCount ← count_from_matches user want rest
    let m : Bool := decide (some fv = user)
    .ok (restCount + if m = want then 1 else 0)

/-- Model of `extract_summary_data`: one row per metric; every absent
section defaults to an empty collection, so there is no no-result branch. -/
def extract_summary_data (data : JValue) : Except PyErr ExtractionResult := do
  let user_name ← get_user_name data
  let chat_history ← get_chat_history data
  let flattened ← flatten_chat_history chat_history
  let dms ← get_date_filtered_items flattened
  let sent_count ← count_from_matches user_name true dms
  let received_count ← count_from_matches user_name false dms
  let followers ← filtered_count data ["Activity", "Follower List", "FansList"]
  let following ← filtered_count data ["Activity", "Following List", "Following"]
  let likesReceived ← cast_number data
    ["Profile", "Profile Information", "ProfileMap", "likesReceived"]
  let videosPosted ← filtered_count data ["Video", "Videos", "VideoList"]
  let likesGiven ← filtered_count data ["Activity", "Like List", "ItemFavoriteList"]
  let commentsPosted ← filtered_count data ["Comment", "Comments", "CommentsList"]
  let videosWatched ← filtered_count data ["Activity", "Video Browsing History", "VideoList"]
  .ok ⟨"tiktok_summary", ["Description", "Number"],
    [[Cell.s "Followers", Cell.i (Int.ofNat followers)],
     [Cell.s "Following", Cell.i (Int.ofNat following)],
     [Cell.s "Likes received", cellOfJ likesReceived],
     [Cell.s "Videos posted", Cell.i (Int.ofNat videosPosted)],
     [Cell.s "Likes given", Cell.i (Int.ofNat likesGiven)],
     [Cell.s "Comments posted", Cell.i (Int.ofNat commentsPosted)],
     [Cell.s "Messages sent", Cell.i (Int.ofNat sent_count)],
     [Cell.s "Messages received", Cell.i (Int.ofNat received_count)],
     [Cell.s "Videos watched", Cell.i (Int.ofNat videosWatched)]]⟩

/-- Model of the extractor list inside `extract_tiktok_data`, run in its
source order over one document, keeping the non-`None` results. -/
def run_extractors (data : JValue) : Except PyErr (List ExtractionResult) := do
  let r1 ← extract_summary_data data
  let r2 ← extract_video_posts data
  let r3 ← extract_comments_and_likes data
  let r4 ← extract_videos_viewed data
  let r5 ← extract_session_info data
  let r6 ← extract_direct_messages data
  .ok ([some r1, r2, r3, some r4, some r5, some r6].filterMap id)

/-- Decides whether a string ends with the given suffix. -/
def strEndsWith (s suffix : String) : Bool :=
  List.isPrefixOf suffix.data.reverse s.data.reverse

/-- Content of one zip entry as seen by the reader: either bytes that
`json.load` parses to a document, or bytes on which it raises
`JSONDecodeError`. -/
inductive ZipEntryContent where
  | doc (j : JValue)
  | invalid
deriving DecidableEq, Repr

/-- One entry of a zip archive in archive order. -/
structure ZipEntry where
  name : String
  content : ZipEntryContent
deriving DecidableEq, Repr

/-- User-supplied file abstracted by its observable parse behaviour:
`unreadable` (`open`/read raises `OSError`), `json` (direct parse yields a
document), `notJsonZip` (direct parse raises a decode error and the bytes
open as a zip archive with the given entries), `notJsonNotZip` (direct
parse raises a decode error and `zipfile.ZipFile` raises `BadZipFile`). -/
inductive FileInput where
  | unreadable
  | json (doc : JValue)
  | notJsonZip (entries : List ZipEntry)
  | notJsonNotZip
deriving DecidableEq, Repr

/-- Model of `load_tiktok_data`: validates the parsed document and raises
`IOError("Unsupported file type")` when no (truthy) user name is present. -/
def load_tiktok_data (doc : JValue) : Except PyErr JValue := do
  let user ← get_user_name doc
  if pyFalsy user then .error .ioError else .ok doc

/-- Model of `get_json_data_from_zip`: scans the entries in archive order;
non-".json" names are skipped, `IOError` and `JSONDecodeError` from
parsing or validating an entry are suppressed and the scan continues; the
first entry that parses and validates is returned as a one-element list,
and an exhausted scan yields the empty list. -/
def get_json_data_from_zip : List ZipEntry → Except PyErr (List JValue)
  | [] => .ok []
  | e :: rest =>
    if !(strEndsWith e.name ".json") then get_json_data_from_zip rest
    else
      match e.content with
      | .invalid => get_json_data_from_zip rest
      | .doc j =>
        match load_tiktok_data j with
        | .ok d => .ok [d]
        | .error .ioError => get_json_data_from_zip rest
        | .error err => .error err

/-- Model of `get_json_data_from_file`: attempt 1 parses the file directly
as JSON; only `JSONDecodeError`/`UnicodeDecodeError` fall through to the
zip attempt, so the validation `IOError` of a direct JSON parse
propagates, as does `BadZipFile` from a non-zip file. -/
def get_json_data_from_file : FileInput → Except PyErr (List JValue)
  | .unreadable => .error .ioError
  | .json doc => do
    let d ← load_tiktok_data doc
    .ok [d]
  | .notJsonZip entries => get_json_data_from_zip entries
  | .notJsonNotZip => .error .badZipFile

/-- Model of `extract_tiktok_data`: `None` (here `none`) when the reader
yields no document, otherwise the collected extractor outputs for the
first (only) document. -/
def extract_tiktok_data (file : FileInput) : Except PyErr (Option (List ExtractionResult)) := do
  let docs ← get_json_data_from_file file
  match docs with
  | [] => .ok none
  | d :: _ => do
    let tables ← run_extractors d
    .ok (some tables)

/-- Responses the boundary can deliver at a suspension point, tagged as the
payload kinds the flow controller distinguishes. -/
inductive Response where
  | file (f : FileInput)
  | cancelFile
  | confirmTrue
  | confirmFalse
  | consentJSON (payload : String)
  | consentDecline
  | ack
deriving DecidableEq, Repr

/-- Render and donation commands the flow controller emits at its
suspension points. -/
inductive Event where
  | renderFilePrompt
  | renderRetry
  | renderConsent (tableIds : List String)
  | donation (key : String) (payload : String)
deriving DecidableEq, Repr

/-- Terminal status of a scripted flow run: the generator returned
normally, an exception escaped it, or the response script ran out while it
was suspended. -/
inductive FlowOutcome where
  | finished
  | crashed (e : PyErr)
  | starved
deriving DecidableEq, Repr

/-- Debug log line as appended by `DataDonationProcessor.log`. -/
def logEntry (msg : String) : String :=
  "TikTok: " ++ msg

/-- Model of `DataDonationProcessor.process` driven by a script of
responses (the donation key uses a fixed session id).  Each iteration of
the `while True` loop prompts for a file; a non-file payload raises
`SkipToNextStep`, which the surrounding `suppress` turns into a normal
return.  An `IOError` from extraction prompts one retry confirmation and
then returns regardless of the answer; the (unreachable)
`InvalidFileError` handler and the empty-result branch re-prompt and loop
on confirmation; a successful extraction shows the consent form and, on a
JSON payload, emits the donation command, then loops back to the file
prompt.  Any other exception escapes the generator. -/
def process_loop (responses : List Response) (events : List Event) (log : List String) :
    List Event × List String × FlowOutcome :=
  let events := events ++ [Event.renderFilePrompt]
  match responses with
  | [] => (events, log, .starved)
  | r :: rest =>
    match r with
    | .file f =>
      let log := log ++ [logEntry "extracting file"]
      match extract_tiktok_data f with
      | .error PyErr.ioError =>
        let log := log ++ [logEntry "prompt confirmation to retry file selection"]
        let events := events ++ [Event.renderRetry]
        match rest with
        | [] => (events, log, .starved)
        | _ :: _ => (events, log, .finished)
      | .error PyErr.invalidFileError =>
        let log := log ++ [logEntry "invalid file detected, prompting for retry"]
        let events := events ++ [Event.renderRetry]
        match rest with
        | [] => (events, log, .starved)
        | r2 :: rest2 =>
          if r2 = Response.confirmTrue then process_loop rest2 events log
          else (events, log, .finished)
      | .error e => (events, log, .crashed e)
      | .ok none =>
        let events := events ++ [Event.renderRetry]
        match rest with
        | [] => (events, log, .starved)
        | r2 :: rest2 =>
          if r2 = Response.confirmTrue then process_loop rest2 events log
          else (events, log, .finished)
      | .ok (some tables) =>
        let log := log ++ [logEntry "extraction successful, go to consent form"]
        let log := log ++ [logEntry "prompt consent"]
        let events := events ++ [Event.renderConsent (tables.map ExtractionResult.id)]
        match rest with
        | [] => (events, log, .starved)
        | r2 :: rest2 =>
          match r2 with
          | .consentJSON payload =>
            let log := log ++ [logEntry "donate consent data"]
            let events := events ++ [Event.donation "session-TikTok" payload]
            match rest2 with
            | [] => (events, log, .starved)
            | _ :: rest3 => process_loop rest3 events log
          | _ => process_loop rest2 events log
    | _ =>
      let log := log ++ [logEntry "skip to next step"]
      (events, log, .finished)

/-- Runs the flow from its initial state. -/
def process_run (responses : List Response) : List Event × List String × FlowOutcome :=
  process_loop responses [] []

/-- Decides whether an item has a parseable "Date" lying in the analysis
window. -/
def inWindowItem (x : JValue) : Bool :=
  match itemDate x with
  | .ok t => inWindow t
  | .error _ => false

/-- Reads each message's `item["From"]` in order. -/
def itemFroms : List JValue → Except PyErr (List JValue)
  | [] => .ok []
  | item :: rest => do
    let f ← pyGetItem item "From"
    let tail ← itemFroms rest
    .ok (f :: tail)

/-- Numbers the keys consecutively starting at `n`. -/
def numberFrom (n : Nat) : List AnonKey → List (AnonKey × Nat)
  | [] => []
  | k :: rest => (k, n) :: numberFrom (n + 1) rest

/-- Table of the anonymous-identifier dict after the user key and the given
distinct non-user keys have been inserted. -/
def anonTableFor (user : AnonKey) (seen : List AnonKey) : List (AnonKey × Nat) :=
  (user, 1) :: numberFrom 2 seen

/-- Declarative per-hour buckets of posted videos in first-seen order: for
each distinct hour key, the number of videos in that bucket and the sum of
their likes. -/
def bucketStats (pairs : List (PyDateTime × JValue)) (likeOf : PyDateTime × JValue → Int) :
    List (PyDateTime × Nat × Int) :=
  (dedupFirst (pairs.map (fun p => hourly_key p.1))).map (fun k =>
    (k, (pairs.filter (fun p => hourly_key p.1 = k)).length,
        ((pairs.filter (fun p => hourly_key p.1 = k)).map likeOf).sum))

/-- Declarative session grouping following the specification's words: the
sorted instants split into maximal contiguous groups at gaps above 5
minutes (300 seconds). -/
def splitSessions : List Int → List (List Int)
  | [] => []
  | [t] => [[t]]
  | a :: b :: rest =>
    match splitSessions (b :: rest) with
    | [] => [[a]]
    | g :: gs => if b - a > 300 then [a] :: g :: gs else (a :: g) :: gs

/-- Triple (start, end, duration) of one session group. -/
def groupTriple (g : List Int) : Int × Int × Int :=
  (g.headD 0, g.getLastD 0, g.getLastD 0 - g.headD 0)

/-- Example profile section carrying the given user name. -/
def profileSection (name : String) : String × JValue :=
  ("Profile", jobj [("Profile Information", jobj [("ProfileMap",
    jobj [("userName", JValue.str name)])])])

/-- Example document with a user name and an empty chat history. -/
def docMin : JValue :=
  jobj [profileSection "alice",
    ("Direct Messages", jobj [("Chat History", jobj [("ChatHistory", jobj [])])])]

/-- Example document whose video browsing history holds one item dated
outside the analysis window. -/
def docOutOfWindow : JValue :=
  jobj [("Activity", jobj [("Video Browsing History", jobj [("VideoList",
    jarr [jobj [("Date", JValue.str "2020-06-15 12:00:00"), ("Link", JValue.str "v1")]])])])]

/-- Example item dated exactly at the upper window bound. -/
def itemBoundary : JValue :=
  jobj [("Date", JValue.str "2025-01-01 00:00:00")]

/-- Example item dated inside the analysis window. -/
def itemInside : JValue :=
  jobj [("Date", JValue.str "2022-03-04 10:00:00")]

/-- Example document with a user name and no Direct Messages section. -/
def docNoDm : JValue :=
  jobj [profileSection "alice"]

/-- Example document that parses as JSON but carries no user name. -/
def docNoUser : JValue :=
  jobj []

/-- Example document with a posted video whose "Likes" is the literal
string "None". -/
def docLikesNone : JValue :=
  jobj [("Video", jobj [("Videos", jobj [("VideoList",
    jarr [jobj [("Date", JValue.str "2022-05-01 10:00:00"),
      ("Likes", JValue.str "None")]])])])]

/-- Example document with a posted video lacking the "Likes" key. -/
def docLikesMissing : JValue :=
  jobj [("Video", jobj [("Videos", jobj [("VideoList",
    jarr [jobj [("Date", JValue.str "2022-05-01 10:00:00")]])])])]

/-- Example document on which every active extractor produces a table. -/
def docAll : JValue :=
  jobj [profileSection "alice",
    ("Video", jobj [("Videos", jobj [("VideoList",
      jarr [jobj [("Date", JValue.str "2022-03-04 10:00:00"),
        ("Likes", JValue.str "5")]])])]),
    ("Activity", jobj [
      ("Like List", jobj [("ItemFavoriteList",
        jarr [jobj [("Date", JValue.str "2022-03-04 10:01:00")]])]),
      ("Video Browsing History", jobj [("VideoList",
        jarr [jobj [("Date", JValue.str "2022-03-04 10:02:00"),
          ("Link", JValue.str "v1")]])])]),
    ("Direct Messages", jobj [("Chat History", jobj [("ChatHistory", jobj [
      ("t1", jarr [jobj [("From", JValue.str "bob"),
        ("Date", JValue.str "2022-03-04 10:03:00")]])])])])]

/-- Example user key for the identifier map. -/
def userEx : AnonKey := some (JValue.str "alice")

/-- Example sender sequence whose chronologically first message is from
another party. -/
def fromsEx : List AnonKey :=
  [some (JValue.str "bob"), some (JValue.str "alice"),
   some (JValue.str "carol"), some (JValue.str "bob")]

/-- Tables `run_extractors` produces for `docMin`. -/
def docMinTables : List ExtractionResult :=
  [⟨"tiktok_summary", ["Description", "Number"],
    [[Cell.s "Followers", Cell.i 0], [Cell.s "Following", Cell.i 0],
     [Cell.s "Likes received", Cell.i 0], [Cell.s "Videos posted", Cell.i 0],
     [Cell.s "Likes given", Cell.i 0], [Cell.s "Comments posted", Cell.i 0],
     [Cell.s "Messages sent", Cell.i 0], [Cell.s "Messages received", Cell.i 0],
     [Cell.s "Videos watched", Cell.i 0]]⟩,
   ⟨"tiktok_videos_viewed", ["Date", "Timeslot", "Link"], []⟩,
   ⟨"tiktok_session_info", ["Start", "Duration (in minutes)"], []⟩,
   ⟨"tiktok_direct_messages", ["Anonymous ID", "Sent"], []⟩]

/-- Unfolding equation for `Except` bind against a successful result. -/
theorem except_bind_ok_iff {ε α β : Type} {m : Except ε α} {f : α → Except ε β} {y : β} :
    m >>= f = .ok y ↔ ∃ x, m = .ok x ∧ f x = .ok y := by
  cases m <;> simp [Bind.bind, Except.bind]

/-- Claim C8, counterexample: an item dated exactly 2025-01-01 00:00:00 is
kept by the window filter, while the claimed inclusive-exclusive window
[2021-01-01, 2025-01-01) would discard it. -/
theorem claim_C8_counterexample :
    get_date_filtered_items [itemBoundary]
      = .ok [(⟨2025, 1, 1, 0, 0, 0⟩, itemBoundary)] := by decide

/-- Claim C1, counterexample: the Videos Viewed extractor keeps an item
dated 2020-06-15, outside the analysis window, so its output is not
window-filtered. -/
theorem claim_C1_counterexample :
    extract_videos_viewed docOutOfWindow
      = .ok ⟨"tiktok_videos_viewed", ["Date", "Timeslot", "Link"],
          [[Cell.s "2020-06-15 12:00:00", Cell.s "12-13", Cell.s "v1"]]⟩
    ∧ inWindowItem (jobj [("Date", JValue.str "2020-06-15 12:00:00")]) = false := by decide

/-- Claim C9, counterexample: a posted video whose "Likes" is the literal
string "None" makes the Video Posts extractor fail with `ValueError`
(`int("None")`), and a missing "Likes" key fails with `KeyError`; neither
is treated as 0. -/
theorem claim_C9_counterexample :
    extract_video_posts docLikesNone = .error PyErr.valueError
    ∧ extract_video_posts docLikesMissing = .error PyErr.keyError := by decide

/-- Claim C6, counterexample: on a document whose Direct Messages → Chat
History → ChatHistory section is structurally absent, the Direct Messages
extractor raises `AttributeError` instead of returning no result. -/
theorem claim_C6_counterexample :
    extract_direct_messages docNoDm = .error PyErr.attributeError := by decide

/-- Claim C7, counterexample: on a document where every active extractor
produces a table, the orchestrator's order places Videos Viewed fourth
(after Video Posts and Comments & Likes), not second as the claimed §4.3
order requires. -/
theorem claim_C7_counterexample :
    (run_extractors docAll).map (List.map ExtractionResult.id)
      = .ok ["tiktok_summary", "tiktok_posts", "tiktok_comments_and_likes",
          "tiktok_videos_viewed", "tiktok_session_info", "tiktok_direct_messages"]
    ∧ ["tiktok_summary", "tiktok_posts", "tiktok_comments_and_likes",
        "tiktok_videos_viewed", "tiktok_session_info", "tiktok_direct_messages"]
      ≠ ["tiktok_summary", "tiktok_videos_viewed", "tiktok_posts",
          "tiktok_comments_and_likes", "tiktok_session_info", "tiktok_direct_messages"] := by
  exact ⟨by decide, by decide⟩

/-- Claim C3, counterexample: a file undecodable as JSON and invalid as a
zip raises `BadZipFile`, which the flow controller does not catch: the run
crashes with no retry-confirmation render at all, instead of showing
exactly one retry confirmation and terminating cleanly. -/
theorem claim_C3_counterexample :
    process_run [Response.file FileInput.notJsonNotZip, Response.confirmFalse]
      = ([Event.renderFilePrompt], [logEntry "extracting file"],
         FlowOutcome.crashed PyErr.badZipFile) := by decide

/-- Claim C2, behaviour of the code at the failing input: a document that
parses directly as JSON but has no user name makes `load_tiktok_data`
raise `IOError`, not `InvalidFileError`, so the flow controller shows one
retry confirmation and then terminates even when the user confirms a
retry (only one file prompt is ever rendered). -/
theorem claim_C2_code_eval :
    load_tiktok_data docNoUser = .error PyErr.ioError
    ∧ process_run [Response.file (FileInput.json docNoUser), Response.confirmTrue]
      = ([Event.renderFilePrompt, Event.renderRetry],
         [logEntry "extracting file", logEntry "prompt confirmation to retry file selection"],
         FlowOutcome.finished) := by
  exact ⟨by decide, by decide⟩

/-- Claim C3, amended: whenever extraction raises an `IOError` (an
unreadable file, or a directly-parsed JSON document failing the user-name
validation), the flow controller logs the failure, emits exactly one
retry-confirmation render after the file prompt, and terminates the flow
regardless of the user's answer. -/
theorem claim_C3_amended (f : FileInput) (r2 : Response) (rest : List Response)
    (h : extract_tiktok_data f = .error PyErr.ioError) :
    process_run (Response.file f :: r2 :: rest)
      = ([Event.renderFilePrompt, Event.renderRetry],
         [logEntry "extracting file", logEntry "prompt confirmation to retry file selection"],
         FlowOutcome.finished) := by
  simp [process_run, process_loop, h]

/-- Claim C3, witness: the amended statement applied to an unreadable
file with a confirming answer. -/
theorem claim_C3_amended_witness :
    extract_tiktok_data FileInput.unreadable = .error PyErr.ioError
    ∧ process_run [Response.file FileInput.unreadable, Response.confirmTrue]
      = ([Event.renderFilePrompt, Event.renderRetry],
         [logEntry "extracting file", logEntry "prompt confirmation to retry file selection"],
         FlowOutcome.finished) :=
  ⟨by decide, claim_C3_amended FileInput.unreadable Response.confirmTrue [] (by decide)⟩

/-- Claim C6, amended: on a validated document whose Direct Messages → Chat
History → ChatHistory section is structurally absent, the Direct Messages
extractor raises `AttributeError` (from `flatten_chat_history(None)`)
rather than returning no result; when the section is present but empty it
returns a table with zero data rows. -/
theorem claim_C6_amended (data : JValue) (u : Option JValue)
    (hu : get_user_name data = .ok u) :
    (get_in data ["Direct Messages", "Chat History", "ChatHistory"] = .ok none →
      extract_direct_messages data = .error PyErr.attributeError)
    ∧ (get_in data ["Direct Messages", "Chat History", "ChatHistory"] = .ok (some JValue.objNil) →
      extract_direct_messages data
        = .ok ⟨"tiktok_direct_messages", ["Anonymous ID", "Sent"], []⟩) := by
  constructor
  · intro h
    simp [extract_direct_messages, h, hu, Bind.bind, Except.bind, historyItems]
  · intro h
    simp [extract_direct_messages, h, hu, Bind.bind, Except.bind, historyItems,
      flatten_chat_history, JValue.dictValues, concatElems, dmRowsGo]

/-- Claim C6, witness: the amended statement applied to a document without
the section and to one with an empty section. -/
theorem claim_C6_amended_witness :
    extract_direct_messages docNoDm = .error PyErr.attributeError
    ∧ extract_direct_messages docMin
      = .ok ⟨"tiktok_direct_messages", ["Anonymous ID", "Sent"], []⟩ :=
  ⟨(claim_C6_amended docNoDm (some (JValue.str "alice")) (by decide)).1 (by decide),
   (claim_C6_amended docMin (some (JValue.str "alice")) (by decide)).2 (by decide)⟩

/-- Characterization of a successful window-filter run: it keeps exactly
the items whose parsed date lies in the closed window, pairing each with
its parsed timestamp. -/
theorem gdfi_ok_spec : ∀ {items : List JValue} {l : List (PyDateTime × JValue)},
    get_date_filtered_items items = .ok l →
    l.map Prod.snd = items.filter (fun x => inWindowItem x)
    ∧ ∀ p ∈ l, itemDate p.2 = .ok p.1 ∧ inWindow p.1 = true := by
  intro items
  induction items with
  | nil =>
    intro l h
    simp only [get_date_filtered_items, Except.ok.injEq] at h
    subst h
    simp
  | cons x rest ih =>
    intro l h
    simp only [get_date_filtered_items] at h
    rw [except_bind_ok_iff] at h
    obtain ⟨t, ht, h⟩ := h
    rw [except_bind_ok_iff] at h
    obtain ⟨tail, htail, h⟩ := h
    have hspec := ih htail
    cases hw : inWindow t with
    | true =>
      rw [hw] at h
      rw [if_pos rfl, Except.ok.injEq] at h
      subst h
      refine ⟨?_, ?_⟩
      · have hx : inWindowItem x = true := by
          unfold inWindowItem
          rw [ht]
          exact hw
        simp [hx, hspec.1]
      · intro p hp
        rcases List.mem_cons.mp hp with hp1 | hp2
        · subst hp1
          exact ⟨ht, hw⟩
        · exact hspec.2 p hp2
    | false =>
      rw [hw] at h
      simp only [Bool.false_eq_true, if_false, Except.ok.injEq] at h
      subst h
      refine ⟨?_, hspec.2⟩
      have hx : inWindowItem x = false := by
        unfold inWindowItem
        rw [ht]
        exact hw
      simp [hx, hspec.1]

/-- Claim C8, amended: the window filter yields exactly those items whose
parsed instant t satisfies filter_start ≤ t ≤ filter_end, i.e. the window
is inclusive at both 2021-01-01 00:00:00 and 2025-01-01 00:00:00; an item
dated exactly 2025-01-01 00:00:00 is kept. -/
theorem claim_C8_amended (items : List JValue) (l : List (PyDateTime × JValue))
    (h : get_date_filtered_items items = .ok l) :
    (∀ p ∈ l, (PyDateTime.le filter_start p.1 && PyDateTime.le p.1 filter_end) = true)
    ∧ l.map Prod.snd = items.filter (fun x => inWindowItem x)
    ∧ inWindow ⟨2025, 1, 1, 0, 0, 0⟩ = true := by
  obtain ⟨hmap, hall⟩ := gdfi_ok_spec h
  refine ⟨?_, hmap, by decide⟩
  intro p hp
  exact (hall p hp).2

/-- Claim C8, witness: the amended statement applied to the boundary item,
which the filter keeps. -/
theorem claim_C8_amended_witness :
    (∀ p ∈ [((⟨2025, 1, 1, 0, 0, 0⟩ : PyDateTime), itemBoundary)],
      (PyDateTime.le filter_start p.1 && PyDateTime.le p.1 filter_end) = true)
    ∧ [((⟨2025, 1, 1, 0, 0, 0⟩ : PyDateTime), itemBoundary)].map Prod.snd
      = [itemBoundary].filter (fun x => inWindowItem x)
    ∧ inWindow ⟨2025, 1, 1, 0, 0, 0⟩ = true :=
  claim_C8_amended [itemBoundary] [(⟨2025, 1, 1, 0, 0, 0⟩, itemBoundary)] (by decide)

/-- Length preservation of the videos-viewed row construction. -/
theorem videos_viewed_rows_length : ∀ {videos : List JValue} {rows : List (List Cell)},
    videos_viewed_rows videos = .ok rows → rows.length = videos.length := by
  intro videos
  induction videos with
  | nil =>
    intro rows h
    simp only [videos_viewed_rows, Except.ok.injEq] at h
    subst h
    rfl
  | cons v rest ih =>
    intro rows h
    simp only [videos_viewed_rows] at h
    rw [except_bind_ok_iff] at h
    obtain ⟨a, -, h⟩ := h
    rw [except_bind_ok_iff] at h
    obtain ⟨b, -, h⟩ := h
    rw [except_bind_ok_iff] at h
    obtain ⟨c, -, h⟩ := h
    rw [except_bind_ok_iff] at h
    obtain ⟨tail, htail, h⟩ := h
    rw [Except.ok.injEq] at h
    subst h
    simp [ih htail]

/-- Length preservation of the direct-messages row construction. -/
theorem dmRowsGo_length : ∀ {items : List JValue} {st : AnonState} {rows : List (List Cell)},
    dmRowsGo st items = .ok rows → rows.length = items.length := by
  intro items
  induction items with
  | nil =>
    intro st rows h
    simp only [dmRowsGo, Except.ok.injEq] at h
    subst h
    rfl
  | cons v rest ih =>
    intro st rows h
    simp only [dmRowsGo] at h
    rw [except_bind_ok_iff] at h
    obtain ⟨a, -, h⟩ := h
    rw [except_bind_ok_iff] at h
    obtain ⟨b, -, h⟩ := h
    rw [except_bind_ok_iff] at h
    obtain ⟨tail, htail, h⟩ := h
    rw [Except.ok.injEq] at h
    subst h
    simp [ih htail]

/-- Claim C1, amended: the window filter keeps exactly the items whose
parsed instant lies in [2021-01-01, 2025-01-01] (both bounds included),
and the extractors built on it operate on those items only; but the
Videos Viewed and Direct Messages extractors apply no window filter at
all: their row counts equal the total number of source items. -/
theorem claim_C1_amended :
    (∀ (items : List JValue) (l : List (PyDateTime × JValue)),
      get_date_filtered_items items = .ok l →
      l.map Prod.snd = items.filter (fun x => inWindowItem x))
    ∧ (∀ (data : JValue) (videos : List JValue) (r : ExtractionResult),
      get_activity_video_browsing_list_data data = .ok videos →
      extract_videos_viewed data = .ok r → r.rows.length = videos.length)
    ∧ (∀ (data h0 : JValue) (items : List JValue) (r : ExtractionResult),
      get_in data ["Direct Messages", "Chat History", "ChatHistory"] = .ok (some h0) →
      flatten_chat_history h0 = .ok items →
      extract_direct_messages data = .ok r → r.rows.length = items.length) := by
  refine ⟨fun items l h => (gdfi_ok_spec h).1, ?_, ?_⟩
  · intro data videos r hv he
    unfold extract_videos_viewed at he
    rw [except_bind_ok_iff] at he
    obtain ⟨vs, hvs, he⟩ := he
    rw [hv, Except.ok.injEq] at hvs
    subst hvs
    rw [except_bind_ok_iff] at he
    obtain ⟨rows, hrows, he⟩ := he
    rw [Except.ok.injEq] at he
    subst he
    exact videos_viewed_rows_length hrows
  · intro data h0 items r hdm hflat he
    unfold extract_direct_messages at he
    rw [except_bind_ok_iff] at he
    obtain ⟨hist, hhist, he⟩ := he
    rw [hdm, Except.ok.injEq] at hhist
    subst hhist
    rw [except_bind_ok_iff] at he
    obtain ⟨u2, -, he⟩ := he
    rw [except_bind_ok_iff] at he
    obtain ⟨items2, hitems2, he⟩ := he
    have : historyItems (some h0) = .ok items := hflat
    rw [this, Except.ok.injEq] at hitems2
    subst hitems2
    rw [except_bind_ok_iff] at he
    obtain ⟨rows, hrows, he⟩ := he
    rw [Except.ok.injEq] at he
    subst he
    exact dmRowsGo_length hrows

/-- Claim C1, witness: the amended statement applied to an in-window item,
to a document with one out-of-window browsing item, and to a document with
one chat message. -/
theorem claim_C1_amended_witness :
    [((⟨2022, 3, 4, 10, 0, 0⟩ : PyDateTime), itemInside)].map Prod.snd
      = [itemInside].filter (fun x => inWindowItem x)
    ∧ (⟨"tiktok_videos_viewed", ["Date", "Timeslot", "Link"],
        [[Cell.s "2020-06-15 12:00:00", Cell.s "12-13", Cell.s "v1"]]⟩
        : ExtractionResult).rows.length
      = [jobj [("Date", JValue.str "2020-06-15 12:00:00"), ("Link", JValue.str "v1")]].length
    ∧ (⟨"tiktok_direct_messages", ["Anonymous ID", "Sent"],
        [[Cell.i 2, Cell.s "2022-03-04 10:03"]]⟩ : ExtractionResult).rows.length
      = [jobj [("From", JValue.str "bob"), ("Date", JValue.str "2022-03-04 10:03:00")]].length :=
  ⟨claim_C1_amended.1 [itemInside] [(⟨2022, 3, 4, 10, 0, 0⟩, itemInside)] (by decide),
   claim_C1_amended.2.1 docOutOfWindow
     [jobj [("Date", JValue.str "2020-06-15 12:00:00"), ("Link", JValue.str "v1")]]
     ⟨"tiktok_videos_viewed", ["Date", "Timeslot", "Link"],
       [[Cell.s "2020-06-15 12:00:00", Cell.s "12-13", Cell.s "v1"]]⟩
     (by decide) (by decide),
   claim_C1_amended.2.2 docAll
     (jobj [("t1", jarr [jobj [("From", JValue.str "bob"),
       ("Date", JValue.str "2022-03-04 10:03:00")]])])
     [jobj [("From", JValue.str "bob"), ("Date", JValue.str "2022-03-04 10:03:00")]]
     ⟨"tiktok_direct_messages", ["Anonymous ID", "Sent"],
       [[Cell.i 2, Cell.s "2022-03-04 10:03"]]⟩
     (by decide) (by decide) (by decide)⟩

/-- Fixed id of a successful Summary extraction. -/
theorem extract_summary_id {data : JValue} {r : ExtractionResult}
    (h : extract_summary_data data = .ok r) : r.id = "tiktok_summary" := by
  unfold extract_summary_data at h
  simp only [except_bind_ok_iff] at h
  obtain ⟨a1, -, a2, -, a3, -, a4, -, a5, -, a6, -, a7, -, a8, -, a9, -, a10, -,
    a11, -, a12, -, a13, -, h⟩ := h
  rw [Except.ok.injEq] at h
  subst h
  rfl

/-- Fixed id of a successful Videos Viewed extraction. -/
theorem extract_videos_viewed_id {data : JValue} {r : ExtractionResult}
    (h : extract_videos_viewed data = .ok r) : r.id = "tiktok_videos_viewed" := by
  unfold extract_videos_viewed at h
  simp only [except_bind_ok_iff] at h
  obtain ⟨a1, -, a2, -, h⟩ := h
  rw [Except.ok.injEq] at h
  subst h
  rfl

/-- Fixed id of a successful Session Info extraction. -/
theorem extract_session_info_id {data : JValue} {r : ExtractionResult}
    (h : extract_session_info data = .ok r) : r.id = "tiktok_session_info" := by
  unfold extract_session_info at h
  simp only [except_bind_ok_iff] at h
  obtain ⟨a1, -, a2, -, a3, -, a4, -, h⟩ := h
  rw [Except.ok.injEq] at h
  subst h
  rfl

/-- Fixed id of a successful Direct Messages extraction. -/
theorem extract_direct_messages_id {data : JValue} {r : ExtractionResult}
    (h : extract_direct_messages data = .ok r) : r.id = "tiktok_direct_messages" := by
  unfold extract_direct_messages at h
  simp only [except_bind_ok_iff] at h
  obtain ⟨a1, -, a2, -, a3, -, a4, -, h⟩ := h
  rw [Except.ok.injEq] at h
  subst h
  rfl

/-- Fixed id of a successful Video Posts extraction that yields a table. -/
theorem extract_video_posts_id {data : JValue} {r : ExtractionResult}
    (h : extract_video_posts data = .ok (some r)) : r.id = "tiktok_posts" := by
  unfold extract_video_posts at h
  rw [except_bind_ok_iff] at h
  obtain ⟨vlOpt, -, h⟩ := h
  cases vlOpt with
  | none => simp at h
  | some v =>
    simp only [except_bind_ok_iff] at h
    obtain ⟨a1, -, a2, -, a3, -, h⟩ := h
    rw [Except.ok.injEq, Option.some.injEq] at h
    subst h
    rfl

/-- Fixed id of a successful Comments & Likes extraction that yields a
table. -/
theorem extract_comments_and_likes_id {data : JValue} {r : ExtractionResult}
    (h : extract_comments_and_likes data = .ok (some r)) :
    r.id = "tiktok_comments_and_likes" := by
  unfold extract_comments_and_likes at h
  simp only [except_bind_ok_iff] at h
  obtain ⟨a1, -, a2, -, a3, -, a4, -, h⟩ := h
  split at h
  · simp at h
  · rw [Except.ok.injEq, Option.some.injEq] at h
    subst h
    rfl

/-- Shape of the orchestrator's successful output: the summary table comes
first, the two optional tables keep their fixed source positions, and the
three unconditional tables close the list. -/
theorem run_extractors_shape {data : JValue} {tables : List ExtractionResult}
    (h : run_extractors data = .ok tables) :
    ∃ opt2 opt3 : List String,
      tables.map ExtractionResult.id
        = ["tiktok_summary"] ++ opt2 ++ opt3
          ++ ["tiktok_videos_viewed", "tiktok_session_info", "tiktok_direct_messages"]
      ∧ (opt2 = [] ∨ opt2 = ["tiktok_posts"])
      ∧ (opt3 = [] ∨ opt3 = ["tiktok_comments_and_likes"]) := by
  unfold run_extractors at h
  simp only [except_bind_ok_iff] at h
  obtain ⟨r1, h1, r2, h2, r3, h3, r4, h4, r5, h5, r6, h6, h⟩ := h
  rw [Except.ok.injEq] at h
  subst h
  have e1 := extract_summary_id h1
  have e4 := extract_videos_viewed_id h4
  have e5 := extract_session_info_id h5
  have e6 := extract_direct_messages_id h6
  cases r2 with
  | none =>
    cases r3 with
    | none =>
      refine ⟨[], [], ?_, Or.inl rfl, Or.inl rfl⟩
      simp [e1, e4, e5, e6]
    | some t3 =>
      have e3 := extract_comments_and_likes_id h3
      refine ⟨[], ["tiktok_comments_and_likes"], ?_, Or.inl rfl, Or.inr rfl⟩
      simp [e1, e3, e4, e5, e6]
  | some t2 =>
    have e2 := extract_video_posts_id h2
    cases r3 with
    | none =>
      refine ⟨["tiktok_posts"], [], ?_, Or.inr rfl, Or.inl rfl⟩
      simp [e1, e2, e4, e5, e6]
    | some t3 =>
      have e3 := extract_comments_and_likes_id h3
      refine ⟨["tiktok_posts"], ["tiktok_comments_and_likes"], ?_, Or.inr rfl, Or.inr rfl⟩
      simp [e1, e2, e3, e4, e5, e6]

/-- Claim C7, amended: for every document, the orchestrator runs the
active extractors in the fixed source order Summary, Video Posts,
Comments & Likes, Videos Viewed, Session Info, Direct Messages and
returns the non-"no result" outputs as a list preserving exactly that
order. -/
theorem claim_C7_amended (data : JValue) (tables : List ExtractionResult)
    (h : run_extractors data = .ok tables) :
    ∃ opt2 opt3 : List String,
      tables.map ExtractionResult.id
        = ["tiktok_summary"] ++ opt2 ++ opt3
          ++ ["tiktok_videos_viewed", "tiktok_session_info", "tiktok_direct_messages"]
      ∧ (opt2 = [] ∨ opt2 = ["tiktok_posts"])
      ∧ (opt3 = [] ∨ opt3 = ["tiktok_comments_and_likes"]) :=
  run_extractors_shape h

/-- Claim C7, witness: the amended statement applied to the minimal
document, where the two optional extractors yield no table. -/
theorem claim_C7_amended_witness :
    run_extractors docMin = .ok docMinTables
    ∧ ∃ opt2 opt3 : List String,
      docMinTables.map ExtractionResult.id
        = ["tiktok_summary"] ++ opt2 ++ opt3
          ++ ["tiktok_videos_viewed", "tiktok_session_info", "tiktok_direct_messages"]
      ∧ (opt2 = [] ∨ opt2 = ["tiktok_posts"])
      ∧ (opt3 = [] ∨ opt3 = ["tiktok_comments_and_likes"]) :=
  ⟨by decide, claim_C7_amended docMin docMinTables (by decide)⟩

/-- Claim C10: whenever the orchestrator returns a table list for a loaded
document, that list is non-empty and begins with the summary table, and
the empty-extraction condition (a `None` result) occurs exactly when the
reader yields no document. -/
theorem claim_C10 (f : FileInput) :
    (∀ tables, extract_tiktok_data f = .ok (some tables) →
      tables ≠ [] ∧ tables.head?.map ExtractionResult.id = some "tiktok_summary")
    ∧ (extract_tiktok_data f = .ok none ↔ get_json_data_from_file f = .ok []) := by
  constructor
  · intro tables h
    unfold extract_tiktok_data at h
    rw [except_bind_ok_iff] at h
    obtain ⟨docs, -, h⟩ := h
    cases docs with
    | nil => simp at h
    | cons d ds =>
      simp only [except_bind_ok_iff] at h
      obtain ⟨ts, hts, h⟩ := h
      rw [Except.ok.injEq, Option.some.injEq] at h
      subst h
      obtain ⟨opt2, opt3, hmap, -, -⟩ := run_extractors_shape hts
      constructor
      · intro hnil
        rw [hnil] at hmap
        simp at hmap
      · rw [← List.head?_map, hmap]
        rfl
  · constructor
    · intro h
      unfold extract_tiktok_data at h
      rw [except_bind_ok_iff] at h
      obtain ⟨docs, hdocs, h⟩ := h
      cases docs with
      | nil => exact hdocs
      | cons d ds =>
        simp only [except_bind_ok_iff] at h
        obtain ⟨ts, -, h⟩ := h
        simp at h
    · intro h
      unfold extract_tiktok_data
      rw [h]
      rfl

/-- Claim C10, witness: the head-of-list statement applied to the minimal
document and the empty-extraction equivalence applied to a validating
failure. -/
theorem claim_C10_witness :
    (docMinTables ≠ []
      ∧ docMinTables.head?.map ExtractionResult.id = some "tiktok_summary")
    ∧ (extract_tiktok_data (FileInput.json docNoUser) = .ok none
        ↔ get_json_data_from_file (FileInput.json docNoUser) = .ok []) :=
  ⟨(claim_C10 (FileInput.json docMin)).1 docMinTables (by decide),
   (claim_C10 (FileInput.json docNoUser)).2⟩

/-- Folding the first-occurrence step only appends to the accumulator. -/
theorem dedup_foldl_extend {α : Type} [DecidableEq α] :
    ∀ (l acc : List α), ∃ extra,
      l.foldl (fun acc2 x => if x ∈ acc2 then acc2 else acc2 ++ [x]) acc = acc ++ extra := by
  intro l
  induction l with
  | nil => intro acc; exact ⟨[], by simp⟩
  | cons x rest ih =>
    intro acc
    simp only [List.foldl_cons]
    by_cases hx : x ∈ acc
    · rw [if_pos hx]
      exact ih acc
    · rw [if_neg hx]
      obtain ⟨extra, he⟩ := ih (acc ++ [x])
      exact ⟨[x] ++ extra, by simp [he]⟩

/-- Membership in the first-occurrence fold. -/
theorem mem_dedup_foldl {α : Type} [DecidableEq α] :
    ∀ (l acc : List α) (y : α),
      (y ∈ l.foldl (fun acc2 x => if x ∈ acc2 then acc2 else acc2 ++ [x]) acc)
        ↔ y ∈ acc ∨ y ∈ l := by
  intro l
  induction l with
  | nil => intro acc y; simp
  | cons x rest ih =>
    intro acc y
    simp only [List.foldl_cons]
    by_cases hx : x ∈ acc
    · rw [if_pos hx, ih]
      constructor
      · rintro (h | h)
        · exact Or.inl h
        · exact Or.inr (List.mem_cons_of_mem x h)
      · rintro (h | h)
        · exact Or.inl h
        · rcases List.mem_cons.mp h with rfl | h2
          · exact Or.inl hx
          · exact Or.inr h2
    · rw [if_neg hx, ih]
      simp [List.mem_append, List.mem_cons, or_assoc, or_comm, or_left_comm]

/-- Splitting the first-occurrence scan across an append. -/
theorem dedupFirst_append {α : Type} [DecidableEq α] (a b : List α) :
    dedupFirst (a ++ b)
      = b.foldl (fun acc2 x => if x ∈ acc2 then acc2 else acc2 ++ [x]) (dedupFirst a) := by
  simp [dedupFirst, List.foldl_append]

/-- Appending one element to the scanned list. -/
theorem dedupFirst_snoc {α : Type} [DecidableEq α] (l : List α) (x : α) :
    dedupFirst (l ++ [x])
      = if x ∈ dedupFirst l then dedupFirst l else dedupFirst l ++ [x] := by
  rw [dedupFirst_append]
  rfl

/-- Membership is preserved by the first-occurrence scan. -/
theorem mem_dedupFirst {α : Type} [DecidableEq α] {l : List α} {y : α} :
    y ∈ dedupFirst l ↔ y ∈ l := by
  unfold dedupFirst
  rw [mem_dedup_foldl]
  simp

/-- The first-occurrence scan of a longer list extends that of a prefix. -/
theorem dedupFirst_prefix {α : Type} [DecidableEq α] (a b : List α) :
    ∃ extra, dedupFirst (a ++ b) = dedupFirst a ++ extra := by
  rw [dedupFirst_append]
  exact dedup_foldl_extend b (dedupFirst a)

/-- Rank of a member of the left part of an append. -/
theorem rankIn_append_left {α : Type} [DecidableEq α] {l : List α} {a : α}
    (ha : a ∈ l) (e : List α) : rankIn (l ++ e) a = rankIn l a := by
  induction l with
  | nil => cases ha
  | cons x rest ih =>
    simp only [List.cons_append, rankIn, List.append_eq]
    by_cases hx : x = a
    · rw [if_pos hx, if_pos hx]
    · rw [if_neg hx, if_neg hx]
      rcases List.mem_cons.mp ha with h | h
      · exact absurd h.symm hx
      · rw [ih h]

/-- Rank of a fresh element appended at the end. -/
theorem rankIn_snoc_self {α : Type} [DecidableEq α] {l : List α} {a : α}
    (ha : a ∉ l) : rankIn (l ++ [a]) a = l.length := by
  induction l with
  | nil => simp [rankIn]
  | cons x rest ih =>
    simp only [List.cons_append, rankIn, List.append_eq]
    have hx : x ≠ a := fun h => ha (h ▸ List.mem_cons_self x rest)
    rw [if_neg hx, ih (fun h => ha (List.mem_cons_of_mem x h))]
    simp [Nat.add_comm]

/-- The rank function is injective on members. -/
theorem rankIn_inj {α : Type} [DecidableEq α] :
    ∀ {l : List α} {a b : α}, a ∈ l → b ∈ l → rankIn l a = rankIn l b → a = b := by
  intro l
  induction l with
  | nil => intro a b ha; cases ha
  | cons x rest ih =>
    intro a b ha hb h
    simp only [rankIn] at h
    by_cases hxa : x = a
    · by_cases hxb : x = b
      · rw [← hxa, ← hxb]
      · rw [if_pos hxa, if_neg hxb] at h
        omega
    · by_cases hxb : x = b
      · rw [if_neg hxa, if_pos hxb] at h
        omega
      · rw [if_neg hxa, if_neg hxb] at h
        have ha2 : a ∈ rest := by
          rcases List.mem_cons.mp ha with h2 | h2
          · exact absurd h2.symm hxa
          · exact h2
        have hb2 : b ∈ rest := by
          rcases List.mem_cons.mp hb with h2 | h2
          · exact absurd h2.symm hxb
          · exact h2
        exact ih ha2 hb2 (by omega)

/-- Numbering the keys splits across an append. -/
theorem numberFrom_append :
    ∀ (a b : List AnonKey) (n : Nat),
      numberFrom n (a ++ b) = numberFrom n a ++ numberFrom (n + a.length) b := by
  intro a
  induction a with
  | nil => intro b n; simp [numberFrom]
  | cons x rest ih =>
    intro b n
    simp only [List.cons_append, numberFrom, List.length_cons, List.append_eq]
    rw [ih]
    have harith : n + 1 + rest.length = n + (rest.length + 1) := by omega
    rw [harith]

/-- The donating user's key never enters the seen set. -/
theorem seenOf_snoc_user (user : AnonKey) (p : List AnonKey) :
    seenOf user (p ++ [user]) = seenOf user p := by
  unfold seenOf
  simp [List.filter_append]

/-- The seen set absorbs an already-seen non-user key. -/
theorem seenOf_snoc_mem {user k : AnonKey} (p : List AnonKey)
    (hk : k ≠ user) (hmem : k ∈ seenOf user p) :
    seenOf user (p ++ [k]) = seenOf user p := by
  unfold seenOf at *
  rw [List.filter_append]
  have hf : List.filter (fun x => decide (x ≠ user)) [k] = [k] := by simp [hk]
  rw [hf, dedupFirst_snoc, if_pos hmem]

/-- The seen set appends a fresh non-user key at the end. -/
theorem seenOf_snoc_new {user k : AnonKey} (p : List AnonKey)
    (hk : k ≠ user) (hmem : k ∉ seenOf user p) :
    seenOf user (p ++ [k]) = seenOf user p ++ [k] := by
  unfold seenOf at *
  rw [List.filter_append]
  have hf : List.filter (fun x => decide (x ≠ user)) [k] = [k] := by simp [hk]
  rw [hf, dedupFirst_snoc, if_neg hmem]

/-- The seen set of a longer prefix extends that of a shorter one. -/
theorem seenOf_prefix (user : AnonKey) (p q : List AnonKey) :
    ∃ extra, seenOf user (p ++ q) = seenOf user p ++ extra := by
  unfold seenOf
  rw [List.filter_append]
  exact dedupFirst_prefix _ _

/-- Lookup in the numbered table. -/
theorem anonLookup_numberFrom {k : AnonKey} :
    ∀ (seen : List AnonKey) (n : Nat),
      anonLookup (numberFrom n seen) k
        = if k ∈ seen then some (n + rankIn seen k) else none := by
  intro seen
  induction seen with
  | nil => intro n; simp [numberFrom, anonLookup]
  | cons s rest ih =>
    intro n
    simp only [numberFrom, anonLookup]
    by_cases hks : k = s
    · subst hks
      rw [if_pos rfl, if_pos (List.mem_cons_self k rest)]
      simp [rankIn]
    · rw [if_neg hks, ih]
      by_cases hmem : k ∈ rest
      · rw [if_pos hmem, if_pos (List.mem_cons_of_mem s hmem)]
        have hsk : ¬s = k := fun h => hks h.symm
        simp only [rankIn, if_neg hsk, Option.some.injEq]
        omega
      · rw [if_neg hmem, if_neg ?_]
        intro hc
        rcases List.mem_cons.mp hc with h | h
        · exact hks h
        · exact hmem h

/-- Accessing the user key returns identifier 1 and leaves the state
unchanged. -/
theorem anonNext_user (user : AnonKey) (seen : List AnonKey) (c : Nat) :
    anonNext ⟨anonTableFor user seen, c⟩ user = (⟨anonTableFor user seen, c⟩, 1) := by
  unfold anonNext anonTableFor
  simp [anonLookup]

/-- Accessing an already-seen non-user key returns its assigned
identifier and leaves the state unchanged. -/
theorem anonNext_seen {user k : AnonKey} (seen : List AnonKey) (c : Nat)
    (hk : k ≠ user) (hmem : k ∈ seen) :
    anonNext ⟨anonTableFor user seen, c⟩ k
      = (⟨anonTableFor user seen, c⟩, 2 + rankIn seen k) := by
  unfold anonNext
  have hl : anonLookup (anonTableFor user seen) k = some (2 + rankIn seen k) := by
    unfold anonTableFor
    simp only [anonLookup, if_neg hk]
    rw [anonLookup_numberFrom, if_pos hmem]
  rw [hl]

/-- Accessing a fresh non-user key assigns the counter value and appends
the key to the table. -/
theorem anonNext_new {user k : AnonKey} (seen : List AnonKey)
    (hk : k ≠ user) (hmem : k ∉ seen) :
    anonNext ⟨anonTableFor user seen, 2 + seen.length⟩ k
      = (⟨anonTableFor user (seen ++ [k]), 2 + (seen ++ [k]).length⟩, 2 + seen.length) := by
  unfold anonNext
  have hl : anonLookup (anonTableFor user seen) k = none := by
    unfold anonTableFor
    simp only [anonLookup, if_neg hk]
    rw [anonLookup_numberFrom, if_neg hmem]
  rw [hl]
  have ht : anonTableFor user seen ++ [(k, 2 + seen.length)]
      = anonTableFor user (seen ++ [k]) := by
    unfold anonTableFor
    rw [numberFrom_append]
    simp [numberFrom]
  simp only []
  rw [Prod.mk.injEq]
  constructor
  · rw [AnonState.mk.injEq]
    refine ⟨ht, ?_⟩
    simp only [List.length_append, List.length_cons, List.length_nil]
    omega
  · rfl

/-- Invariant run of the identifier-assignment loop: from the dictionary
state reached after a processed prefix, the remaining keys receive exactly
their declarative identifiers. -/
theorem dmAssignGo_spec (user : AnonKey) :
    ∀ (rest p : List AnonKey),
      dmAssignGo ⟨anonTableFor user (seenOf user p), 2 + (seenOf user p).length⟩ rest
        = rest.map (specAnonId user (p ++ rest)) := by
  intro rest
  induction rest with
  | nil => intro p; rfl
  | cons k rest2 ih =>
    intro p
    simp only [dmAssignGo, List.map_cons]
    by_cases hk : k = user
    · subst hk
      simp only [anonNext_user]
      have h2 := ih (p ++ [k])
      rw [seenOf_snoc_user] at h2
      rw [h2, List.cons.injEq]
      constructor
      · simp [specAnonId]
      · simp [List.append_assoc]
    · by_cases hmem : k ∈ seenOf user p
      · simp only [anonNext_seen _ _ hk hmem]
        have h2 := ih (p ++ [k])
        rw [seenOf_snoc_mem p hk hmem] at h2
        rw [h2, List.cons.injEq]
        constructor
        · obtain ⟨extra, hex⟩ := seenOf_prefix user p (k :: rest2)
          unfold specAnonId
          rw [if_neg hk, hex, rankIn_append_left hmem]
        · simp [List.append_assoc]
      · simp only [anonNext_new _ hk hmem]
        have h2 := ih (p ++ [k])
        rw [seenOf_snoc_new p hk hmem] at h2
        rw [h2, List.cons.injEq]
        constructor
        · unfold specAnonId
          rw [if_neg hk]
          rw [show p ++ k :: rest2 = (p ++ [k]) ++ rest2 from by simp]
          obtain ⟨extra, hex⟩ := seenOf_prefix user (p ++ [k]) rest2
          rw [seenOf_snoc_new p hk hmem] at hex
          rw [hex]
          have hkmem : k ∈ seenOf user p ++ [k] := by simp
          rw [rankIn_append_left hkmem, rankIn_snoc_self hmem]
        · simp [List.append_assoc]

/-- One run of the identifier map realizes the declarative assignment. -/
theorem dmAssignIds_spec (user : AnonKey) (froms : List AnonKey) :
    dmAssignIds user froms = froms.map (specAnonId user froms) := by
  have h := dmAssignGo_spec user froms []
  simp only [List.nil_append] at h
  have h0 : (anonNext ⟨[], 1⟩ user).1
      = ⟨anonTableFor user (seenOf user []), 2 + (seenOf user []).length⟩ := rfl
  unfold dmAssignIds
  rw [h0, h]

/-- The declarative identifier is injective on keys that occur. -/
theorem specAnonId_inj (user : AnonKey) (froms : List AnonKey) {a b : AnonKey}
    (ha : a ∈ froms) (hb : b ∈ froms) :
    specAnonId user froms a = specAnonId user froms b ↔ a = b := by
  constructor
  · intro h
    unfold specAnonId at h
    by_cases hau : a = user
    · by_cases hbu : b = user
      · rw [hau, hbu]
      · rw [if_pos hau, if_neg hbu] at h
        omega
    · by_cases hbu : b = user
      · rw [if_neg hau, if_pos hbu] at h
        omega
      · rw [if_neg hau, if_neg hbu] at h
        have ha2 : a ∈ seenOf user froms := by
          unfold seenOf
          rw [mem_dedupFirst, List.mem_filter]
          exact ⟨ha, by simpa using hau⟩
        have hb2 : b ∈ seenOf user froms := by
          unfold seenOf
          rw [mem_dedupFirst, List.mem_filter]
          exact ⟨hb, by simpa using hbu⟩
        exact rankIn_inj ha2 hb2 (by omega)
  · intro h
    rw [h]

/-- Claim C4: within one run of the Direct Messages extractor the
anonymous identifier map assigns the donating user's own key the value 1
regardless of message order, assigns the same integer to equal keys and
distinct integers to distinct keys (sequentially, in first-seen order, as
`specAnonId` spells out), and the table's first column carries exactly
these identifiers. -/
theorem claim_C4 (user : AnonKey) (froms : List AnonKey) :
    dmAssignIds user froms = froms.map (specAnonId user froms)
    ∧ specAnonId user froms user = 1
    ∧ (∀ a b, a ∈ froms → b ∈ froms →
        (specAnonId user froms a = specAnonId user froms b ↔ a = b))
    ∧ (∀ (items : List JValue) (st : AnonState) (rows : List (List Cell)),
        dmRowsGo st items = .ok rows →
        ∃ fs, itemFroms items = .ok fs
          ∧ rows.map List.head?
            = (dmAssignGo st (fs.map some)).map (fun n => some (Cell.i (Int.ofNat n)))) := by
  refine ⟨dmAssignIds_spec user froms, by simp [specAnonId],
    fun a b ha hb => specAnonId_inj user froms ha hb, ?_⟩
  intro items
  induction items with
  | nil =>
    intro st rows h
    simp only [dmRowsGo, Except.ok.injEq] at h
    subst h
    exact ⟨[], rfl, by simp [dmAssignGo]⟩
  | cons item rest ih =>
    intro st rows h
    simp only [dmRowsGo] at h
    rw [except_bind_ok_iff] at h
    obtain ⟨fv, hfv, h⟩ := h
    rw [except_bind_ok_iff] at h
    obtain ⟨d, hd, h⟩ := h
    rw [except_bind_ok_iff] at h
    obtain ⟨tail, htail, h⟩ := h
    rw [Except.ok.injEq] at h
    subst h
    obtain ⟨fs2, hfs2, hmap⟩ := ih _ _ htail
    refine ⟨fv :: fs2, ?_, ?_⟩
    · simp [itemFroms, hfv, hfs2, Bind.bind, Except.bind]
    · simp only [List.map_cons, List.head?_cons, dmAssignGo, hmap]

/-- Claim C4, witness: on a run whose first message is from another party,
bob gets 2, the donating user alice keeps 1, carol gets 3, and bob's
second message reuses 2; the extractor's first column realizes the same
assignment. -/
theorem claim_C4_witness :
    dmAssignIds userEx fromsEx = [2, 1, 3, 2]
    ∧ specAnonId userEx fromsEx userEx = 1
    ∧ specAnonId userEx fromsEx (some (JValue.str "bob"))
      ≠ specAnonId userEx fromsEx (some (JValue.str "carol"))
    ∧ ∃ fs, itemFroms [jobj [("From", JValue.str "bob"),
          ("Date", JValue.str "2022-03-04 10:03:00")]] = .ok fs
        ∧ [[Cell.i 2, Cell.s "2022-03-04 10:03"]].map List.head?
          = (dmAssignGo ⟨[(userEx, 1)], 2⟩ (fs.map some)).map
              (fun n => some (Cell.i (Int.ofNat n))) :=
  ⟨(claim_C4 userEx fromsEx).1.trans (by decide),
   (claim_C4 userEx fromsEx).2.1,
   fun h => absurd
     (((claim_C4 userEx fromsEx).2.2.1 (some (JValue.str "bob")) (some (JValue.str "carol"))
        (by decide) (by decide)).mp h)
     (by decide),
   (claim_C4 userEx fromsEx).2.2.2
     [jobj [("From", JValue.str "bob"), ("Date", JValue.str "2022-03-04 10:03:00")]]
     ⟨[(userEx, 1)], 2⟩
     [[Cell.i 2, Cell.s "2022-03-04 10:03"]] (by decide)⟩

/-- The first-occurrence fold keeps the accumulator duplicate-free. -/
theorem dedup_foldl_nodup {α : Type} [DecidableEq α] :
    ∀ (l acc : List α), acc.Nodup →
      (l.foldl (fun acc2 x => if x ∈ acc2 then acc2 else acc2 ++ [x]) acc).Nodup := by
  intro l
  induction l with
  | nil => intro acc h; simpa using h
  | cons x rest ih =>
    intro acc h
    simp only [List.foldl_cons]
    by_cases hx : x ∈ acc
    · rw [if_pos hx]
      exact ih acc h
    · rw [if_neg hx]
      refine ih _ ?_
      rw [List.nodup_append]
      exact ⟨h, List.nodup_singleton x,
        fun a ha hax => hx ((List.mem_singleton.mp hax) ▸ ha)⟩

/-- The first-occurrence scan is duplicate-free. -/
theorem dedupFirst_nodup {α : Type} [DecidableEq α] (l : List α) :
    (dedupFirst l).Nodup :=
  dedup_foldl_nodup l [] List.nodup_nil

/-- Updating a fresh key appends a new bucket at the end. -/
theorem post_stats_update_fresh (keys : List PyDateTime) (c : PyDateTime → Nat)
    (s : PyDateTime → Int) (k : PyDateTime) (likes : Int) (hk : k ∉ keys) :
    post_stats_update (keys.map (fun k2 => (k2, c k2, s k2))) k likes
      = keys.map (fun k2 => (k2, c k2, s k2)) ++ [(k, 1, likes)] := by
  induction keys with
  | nil => rfl
  | cons q rest ih =>
    have hq : ¬q = k := fun h => hk (h ▸ List.mem_cons_self q rest)
    simp only [List.map_cons, post_stats_update, if_neg hq, List.cons_append]
    rw [ih (fun h => hk (List.mem_cons_of_mem q h))]

/-- Updating a present key of a duplicate-free bucket list increments its
count and adds the likes in place. -/
theorem post_stats_update_mem (keys : List PyDateTime) (c : PyDateTime → Nat)
    (s : PyDateTime → Int) (k : PyDateTime) (likes : Int)
    (hnd : keys.Nodup) (hk : k ∈ keys) :
    post_stats_update (keys.map (fun k2 => (k2, c k2, s k2))) k likes
      = keys.map (fun k2 =>
          (k2, c k2 + (if k2 = k then 1 else 0), s k2 + (if k2 = k then likes else 0))) := by
  induction keys with
  | nil => cases hk
  | cons q rest ih =>
    rw [List.nodup_cons] at hnd
    by_cases hq : q = k
    · subst hq
      simp only [List.map_cons, post_stats_update, eq_self_iff_true, if_true, ite_true]
      rw [List.cons.injEq]
      constructor
      · simp
      · refine (List.map_congr_left ?_).symm
        intro a ha
        have hne : ¬a = q := fun h => hnd.1 (h ▸ ha)
        simp [hne]
    · have hkrest : k ∈ rest := by
        rcases List.mem_cons.mp hk with h | h
        · exact absurd h.symm hq
        · exact h
      simp only [List.map_cons, post_stats_update, if_neg hq]
      rw [List.cons.injEq]
      constructor
      · simp [hq]
      · exact ih hnd.2 hkrest

/-- Filtering an appended singleton. -/
theorem filter_snoc {α : Type} (l : List α) (x : α) (q : α → Bool) :
    (l ++ [x]).filter q = l.filter q ++ (if q x then [x] else []) := by
  rw [List.filter_append]
  congr 1
  simp [List.filter_cons]

/-- A key outside the hour-key image has an empty bucket. -/
theorem bucket_empty_of_not_mem (pairs : List (PyDateTime × JValue)) {k : PyDateTime}
    (hk : k ∉ pairs.map (fun p => hourly_key p.1)) :
    pairs.filter (fun p => hourly_key p.1 = k) = [] := by
  rw [List.filter_eq_nil_iff]
  intro p hp
  simp only [decide_eq_true_eq]
  intro hc
  exact hk (hc ▸ List.mem_map_of_mem _ hp)

/-- Folding one more filtered video into the buckets matches the
declarative per-hour description. -/
theorem bucketStats_snoc (pairs : List (PyDateTime × JValue))
    (likeOf : PyDateTime × JValue → Int) (x : PyDateTime × JValue) :
    bucketStats (pairs ++ [x]) likeOf
      = post_stats_update (bucketStats pairs likeOf) (hourly_key x.1) (likeOf x) := by
  unfold bucketStats
  have hmap : (pairs ++ [x]).map (fun p => hourly_key p.1)
      = pairs.map (fun p => hourly_key p.1) ++ [hourly_key x.1] := by simp
  rw [hmap, dedupFirst_snoc]
  have hpoint : ∀ k2 : PyDateTime,
      ((pairs ++ [x]).filter (fun p => hourly_key p.1 = k2)).length
        = (pairs.filter (fun p => hourly_key p.1 = k2)).length
          + (if k2 = hourly_key x.1 then 1 else 0) := by
    intro k2
    rw [filter_snoc]
    by_cases hkx : k2 = hourly_key x.1
    · simp [hkx]
    · have h2 : ¬hourly_key x.1 = k2 := fun h => hkx h.symm
      simp [hkx, h2]
  have hsum : ∀ k2 : PyDateTime,
      (((pairs ++ [x]).filter (fun p => hourly_key p.1 = k2)).map likeOf).sum
        = ((pairs.filter (fun p => hourly_key p.1 = k2)).map likeOf).sum
          + (if k2 = hourly_key x.1 then likeOf x else 0) := by
    intro k2
    rw [filter_snoc]
    by_cases hkx : k2 = hourly_key x.1
    · simp [hkx]
    · have h2 : ¬hourly_key x.1 = k2 := fun h => hkx h.symm
      simp [hkx, h2]
  by_cases hmem : hourly_key x.1 ∈ dedupFirst (pairs.map (fun p => hourly_key p.1))
  · rw [if_pos hmem]
    rw [post_stats_update_mem (dedupFirst (pairs.map (fun p => hourly_key p.1)))
      (fun k2 => (pairs.filter (fun p => hourly_key p.1 = k2)).length)
      (fun k2 => ((pairs.filter (fun p => hourly_key p.1 = k2)).map likeOf).sum)
      (hourly_key x.1) (likeOf x) (dedupFirst_nodup _) hmem]
    refine List.map_congr_left ?_
    intro k2 hk2
    rw [hpoint k2, hsum k2]
  · rw [if_neg hmem]
    rw [post_stats_update_fresh (dedupFirst (pairs.map (fun p => hourly_key p.1)))
      (fun k2 => (pairs.filter (fun p => hourly_key p.1 = k2)).length)
      (fun k2 => ((pairs.filter (fun p => hourly_key p.1 = k2)).map likeOf).sum)
      (hourly_key x.1) (likeOf x) hmem]
    rw [List.map_append]
    congr 1
    · refine List.map_congr_left ?_
      intro k2 hk2
      have hne : k2 ≠ hourly_key x.1 := fun h => hmem (h ▸ hk2)
      rw [hpoint k2, hsum k2, if_neg hne, if_neg hne]
      simp
    · have hnotmap : hourly_key x.1 ∉ pairs.map (fun p => hourly_key p.1) :=
        fun h => hmem (mem_dedupFirst.mpr h)
      have hfil := bucket_empty_of_not_mem pairs hnotmap
      simp only [List.map_cons, List.map_nil, hpoint, hsum, hfil]
      simp

/-- Unfolding equation for `Except` bind of a successful computation. -/
theorem except_bind_ok {ε α β : Type} (x : α) (f : α → Except ε β) :
    (Except.ok x : Except ε α) >>= f = f x := rfl

/-- The bucket fold of the Video Posts extractor computes the declarative
per-hour buckets, provided every video's "Likes" casts successfully. -/
theorem build_post_stats_spec (likeOf : PyDateTime × JValue → Int) :
    ∀ (pairs pre : List (PyDateTime × JValue)),
      (∀ p ∈ pairs, pyGetItem p.2 "Likes" >>= pyToInt = .ok (likeOf p)) →
      build_post_stats (bucketStats pre likeOf) pairs
        = .ok (bucketStats (pre ++ pairs) likeOf) := by
  intro pairs
  induction pairs with
  | nil => intro pre h; simp [build_post_stats]
  | cons p rest ih =>
    intro pre h
    obtain ⟨d, video⟩ := p
    have hhead := h (d, video) (List.mem_cons_self _ _)
    rw [except_bind_ok_iff] at hhead
    obtain ⟨lv, hlv, hint⟩ := hhead
    simp only [build_post_stats]
    rw [hlv, except_bind_ok, hint, except_bind_ok]
    have hupd : post_stats_update (bucketStats pre likeOf) (hourly_key d) (likeOf (d, video))
        = bucketStats (pre ++ [(d, video)]) likeOf :=
      (bucketStats_snoc pre likeOf (d, video)).symm
    rw [hupd, ih (pre ++ [(d, video)]) (fun q hq => h q (List.mem_cons_of_mem _ hq))]
    simp [List.append_assoc]

/-- Claim C9, amended: each video's likes value is cast with `int()` from
its representation, and the per-hour bucket row carries the count of
videos and the sum of those integers; but a missing "Likes" or the
literal string "None" is not treated as 0: `int("None")` raises
`ValueError` (cf. the counterexample), while `cast_number` - which does
map a missing value to 0 - is used only for the summary's raw
likes-received counter. -/
theorem claim_C9_amended :
    (∀ (pairs : List (PyDateTime × JValue)) (likeOf : PyDateTime × JValue → Int),
      (∀ p ∈ pairs, pyGetItem p.2 "Likes" >>= pyToInt = .ok (likeOf p)) →
      build_post_stats [] pairs = .ok (bucketStats pairs likeOf))
    ∧ pyToInt (JValue.str "None") = .error PyErr.valueError
    ∧ (∀ (d : JValue) (ps : List String),
      get_in d ps = .ok none → cast_number d ps = .ok (JValue.num 0))
    ∧ (∀ (doc v : JValue) (vl : List JValue) (pairs : List (PyDateTime × JValue))
        (stats : List (PyDateTime × Nat × Int)),
      get_in doc ["Video", "Videos", "VideoList"] = .ok (some v) →
      v.elems = .ok vl →
      get_date_filtered_items vl = .ok pairs →
      build_post_stats [] pairs = .ok stats →
      extract_video_posts doc
        = .ok (some ⟨"tiktok_posts", ["Date", "Timeslot", "Videos", "Likes received"],
            stats.map (fun p => [Cell.s (fmtDay p.1), Cell.s (timeslotLabel p.1.hour),
              Cell.i (Int.ofNat p.2.1), Cell.i p.2.2])⟩)) := by
  refine ⟨?_, rfl, ?_, ?_⟩
  · intro pairs likeOf h
    have := build_post_stats_spec likeOf pairs [] h
    simpa using this
  · intro d ps h
    simp [cast_number, h, Bind.bind, Except.bind]
  · intro doc v vl pairs stats hget helems hgdfi hbuild
    unfold extract_video_posts
    rw [hget, except_bind_ok]
    simp only []
    rw [helems, except_bind_ok, hgdfi, except_bind_ok, hbuild, except_bind_ok]

/-- Claim C9, witness: the amended statement applied to one in-window
video with likes string "5", to a missing path for `cast_number`, and to
the full example document. -/
theorem claim_C9_amended_witness :
    build_post_stats []
        [(⟨2022, 3, 4, 10, 0, 0⟩,
          jobj [("Date", JValue.str "2022-03-04 10:00:00"), ("Likes", JValue.str "5")])]
      = .ok (bucketStats
          [(⟨2022, 3, 4, 10, 0, 0⟩,
            jobj [("Date", JValue.str "2022-03-04 10:00:00"), ("Likes", JValue.str "5")])]
          (fun _ => 5))
    ∧ cast_number docNoUser ["Video"] = .ok (JValue.num 0)
    ∧ extract_video_posts docAll
      = .ok (some ⟨"tiktok_posts", ["Date", "Timeslot", "Videos", "Likes received"],
          ([((⟨2022, 3, 4, 10, 0, 0⟩ : PyDateTime), 1, (5 : Int))]).map
            (fun p => [Cell.s (fmtDay p.1), Cell.s (timeslotLabel p.1.hour),
              Cell.i (Int.ofNat p.2.1), Cell.i p.2.2])⟩) :=
  ⟨claim_C9_amended.1
      [(⟨2022, 3, 4, 10, 0, 0⟩,
        jobj [("Date", JValue.str "2022-03-04 10:00:00"), ("Likes", JValue.str "5")])]
      (fun _ => 5) (by decide),
   claim_C9_amended.2.2.1 docNoUser ["Video"] (by decide),
   claim_C9_amended.2.2.2 docAll
     (jarr [jobj [("Date", JValue.str "2022-03-04 10:00:00"), ("Likes", JValue.str "5")]])
     [jobj [("Date", JValue.str "2022-03-04 10:00:00"), ("Likes", JValue.str "5")]]
     [(⟨2022, 3, 4, 10, 0, 0⟩,
       jobj [("Date", JValue.str "2022-03-04 10:00:00"), ("Likes", JValue.str "5")])]
     [(⟨2022, 3, 4, 10, 0, 0⟩, 1, 5)]
     (by decide) (by decide) (by decide) (by decide)⟩

/-- A split of a non-empty list is non-empty and its first group starts
with the first element. -/
theorem splitSessions_shape :
    ∀ (l : List Int) (a : Int), ∃ g2 gs, splitSessions (a :: l) = (a :: g2) :: gs := by
  intro l
  induction l with
  | nil => intro a; exact ⟨[], [], rfl⟩
  | cons b rest ih =>
    intro a
    obtain ⟨g2, gs, hb⟩ := ih b
    simp only [splitSessions, hb]
    by_cases hgap : b - a > 300
    · rw [if_pos hgap]
      exact ⟨[], (b :: g2) :: gs, rfl⟩
    · rw [if_neg hgap]
      exact ⟨b :: g2, gs, rfl⟩

/-- The session groups concatenate back to the scanned list. -/
theorem splitSessions_flatten : ∀ l : List Int, (splitSessions l).flatten = l := by
  intro l
  induction l with
  | nil => rfl
  | cons a rest ih =>
    cases rest with
    | nil => rfl
    | cons b rest2 =>
      obtain ⟨g2, gs, hb⟩ := splitSessions_shape rest2 b
      simp only [splitSessions, hb]
      have hjoin : ((b :: g2) :: gs).flatten = b :: rest2 := by
        rw [← hb]
        exact ih
      simp only [List.flatten_cons, List.cons_append] at hjoin
      rw [List.cons.injEq] at hjoin
      by_cases hgap : b - a > 300
      · rw [if_pos hgap]
        simp only [List.flatten_cons, List.cons_append, List.nil_append, List.cons.injEq]
        exact ⟨trivial, trivial, hjoin.2⟩
      · rw [if_neg hgap]
        simp only [List.flatten_cons, List.cons_append, List.cons.injEq]
        exact ⟨trivial, trivial, hjoin.2⟩

/-- Every session group is non-empty and its internal gaps are at most 5
minutes. -/
theorem splitSessions_within :
    ∀ l : List Int, ∀ g ∈ splitSessions l,
      g ≠ [] ∧ List.Chain' (fun x y => y - x ≤ 300) g := by
  intro l
  induction l with
  | nil => intro g hg; cases hg
  | cons a rest ih =>
    cases rest with
    | nil =>
      intro g hg
      rcases List.mem_cons.mp hg with h | h
      · subst h
        exact ⟨by simp, List.chain'_singleton a⟩
      · cases h
    | cons b rest2 =>
      obtain ⟨g2, gs, hb⟩ := splitSessions_shape rest2 b
      intro g hg
      simp only [splitSessions, hb] at hg
      by_cases hgap : b - a > 300
      · rw [if_pos hgap] at hg
        rcases List.mem_cons.mp hg with h | h
        · subst h
          exact ⟨by simp, List.chain'_singleton a⟩
        · exact ih g (hb ▸ h)
      · rw [if_neg hgap] at hg
        rcases List.mem_cons.mp hg with h | h
        · subst h
          have hhead := ih (b :: g2) (hb ▸ List.mem_cons_self _ _)
          refine ⟨by simp, ?_⟩
          rw [List.chain'_cons]
          exact ⟨by omega, hhead.2⟩
        · exact ih g (hb ▸ List.mem_cons_of_mem _ h)

/-- Consecutive session groups are separated by gaps above 5 minutes. -/
theorem splitSessions_between :
    ∀ l : List Int,
      List.Chain' (fun g h => h.headD 0 - g.getLastD 0 > 300) (splitSessions l) := by
  intro l
  induction l with
  | nil => exact List.chain'_nil
  | cons a rest ih =>
    cases rest with
    | nil => exact List.chain'_singleton [a]
    | cons b rest2 =>
      obtain ⟨g2, gs, hb⟩ := splitSessions_shape rest2 b
      simp only [splitSessions, hb]
      rw [hb] at ih
      by_cases hgap : b - a > 300
      · rw [if_pos hgap]
        rw [List.chain'_cons]
        refine ⟨?_, ih⟩
        simp [hgap]
      · rw [if_neg hgap]
        rw [List.chain'_cons'] at ih ⊢
        refine ⟨?_, ih.2⟩
        intro y hy
        have := ih.1 y hy
        simpa [List.getLastD_cons] using this

/-- The imperative scan of `get_sessions` refines the declarative group
split: it emits one (start, end, duration) triple per group. -/
theorem sessionsLoop_eq :
    ∀ (ts : List Int) (start endv : Int),
      sessionsLoop start endv ts
        = match splitSessions (endv :: ts) with
          | [] => []
          | g :: gs => (start, g.getLastD 0, g.getLastD 0 - start) :: gs.map groupTriple := by
  intro ts
  induction ts with
  | nil =>
    intro start endv
    simp [sessionsLoop, splitSessions, List.getLastD]
  | cons cur rest ih =>
    intro start endv
    obtain ⟨g2, gs, hshape⟩ := splitSessions_shape rest cur
    simp only [sessionsLoop, splitSessions, hshape]
    by_cases hgap : cur - endv > 300
    · rw [if_pos hgap, if_pos hgap]
      rw [ih cur cur, hshape]
      simp [groupTriple]
    · rw [if_neg hgap, if_neg hgap]
      rw [ih start cur, hshape]
      simp [List.getLastD_cons]

/-- The full session computation as the mapped declarative split of the
sorted input. -/
theorem get_sessions_eq (ts : List Int) :
    get_sessions ts = (splitSessions (sortAsc ts)).map groupTriple := by
  unfold get_sessions
  cases hs : sortAsc ts with
  | nil => rfl
  | cons t rest =>
    cases rest with
    | nil => simp [splitSessions, groupTriple, List.getLastD]
    | cons b rest2 =>
      show sessionsLoop t t (b :: rest2)
        = List.map groupTriple (splitSessions (t :: b :: rest2))
      rw [sessionsLoop_eq]
      obtain ⟨g2, gs, hshape⟩ := splitSessions_shape (b :: rest2) t
      rw [hshape]
      simp [groupTriple]

/-- The model of Python `sorted` permutes its input. -/
theorem sortAsc_perm (l : List Int) : (sortAsc l).Perm l :=
  List.perm_insertionSort _ l

/-- The model of Python `sorted` sorts ascending. -/
theorem sortAsc_sorted (l : List Int) : List.Sorted (· ≤ ·) (sortAsc l) :=
  List.sorted_insertionSort _ l

/-- Permutations of the input sort to the same list. -/
theorem sortAsc_eq_of_perm {l l2 : List Int} (h : l.Perm l2) : sortAsc l = sortAsc l2 :=
  List.eq_of_perm_of_sorted (((sortAsc_perm l).trans h).trans (sortAsc_perm l2).symm)
    (sortAsc_sorted l) (sortAsc_sorted l2)

/-- Claim C5: `get_sessions` sorts the input ascending and partitions it
into contiguous groups whose internal gaps are at most 5 minutes and whose
separating gaps exceed 5 minutes, emitting one (start, end, duration)
triple per group in chronological order; the empty input gives an empty
result, a single instant gives one zero-duration session, and the result
is invariant under permutation of the input. -/
theorem claim_C5 (l : List Int) :
    get_sessions l = (splitSessions (sortAsc l)).map groupTriple
    ∧ (splitSessions (sortAsc l)).flatten = sortAsc l
    ∧ (sortAsc l).Perm l
    ∧ List.Sorted (· ≤ ·) (sortAsc l)
    ∧ (∀ g ∈ splitSessions (sortAsc l), g ≠ [] ∧ List.Chain' (fun x y => y - x ≤ 300) g)
    ∧ List.Chain' (fun g h => h.headD 0 - g.getLastD 0 > 300) (splitSessions (sortAsc l))
    ∧ get_sessions [] = []
    ∧ (∀ t : Int, get_sessions [t] = [(t, t, 0)])
    ∧ (∀ l2 : List Int, l.Perm l2 → get_sessions l = get_sessions l2) := by
  refine ⟨get_sessions_eq l, splitSessions_flatten _, sortAsc_perm l, sortAsc_sorted l,
    splitSessions_within _, splitSessions_between _, rfl, ?_, ?_⟩
  · intro t
    show (match sortAsc [t] with
      | [] => []
      | [t] => [(t, t, 0)]
      | t :: rest => sessionsLoop t t rest) = [(t, t, 0)]
    simp [sortAsc, List.insertionSort, List.orderedInsert]
  · intro l2 h
    unfold get_sessions
    rw [sortAsc_eq_of_perm h]

/-- Claim C5, witness: the statement applied to a concrete timestamp
multiset and one of its permutations. -/
theorem claim_C5_witness :
    get_sessions [0, 1000, 200, 100] = [(0, 200, 200), (1000, 1000, 0)]
    ∧ get_sessions [0, 1000, 200, 100] = get_sessions [100, 0, 1000, 200]
    ∧ get_sessions [] = []
    ∧ get_sessions [7] = [(7, 7, 0)] :=
  ⟨(claim_C5 [0, 1000, 200, 100]).1.trans (by decide),
   (claim_C5 [0, 1000, 200, 100]).2.2.2.2.2.2.2.2 [100, 0, 1000, 200] (by decide),
   (claim_C5 []).2.2.2.2.2.2.1,
   (claim_C5 []).2.2.2.2.2.2.2.1 7⟩
